import Mathlib

/-!
# Market-feed simulator: spike detector, tick generator, server pipeline and dashboard

A shallow embedding of `src/modules/spikeDetector.js`, `src/modules/tickGenerator.js`,
`src/server.js` and the state handling of `src/Dashboard.jsx`.

Modelling conventions
* JavaScript numbers that carry prices are exact rationals (`ℚ`). Binary64 rounding is
  modelled by `toDouble` and used in `detectAndLogDouble`, where the threshold comparison
  depends on it; elsewhere arithmetic is exact.
* A JavaScript object used as a table is a function from keys to `Option`: `none` is
  `undefined`.
* Module-level mutable variables become fields of an explicit state record that every
  operation takes and returns.
* Effects (`appendSpike`, `io.emit`, `tickQueue.push`) are recorded in append-only lists
  held in the state.
* Reads of the environment (`Date.now()`, `Math.random()`) are extra arguments.
* `Math.sqrt` is the real square root; it is the only place where real numbers appear.
* A React state variable read inside a socket handler has the value of the render that
  created the handler; a variable changed through an updater function has its current
  value.
-/

namespace MarketFeed

/-! ## `modules/spikeDetector.js` -/

/-- The price portion of a tick, the object `{ [instrument]: price }`. -/
structure PriceTick where
  instrument : String
  price : ℚ
deriving DecidableEq

/-- The object literal built at lines 41-47 of `spikeDetector.js`. -/
structure SpikeEvent where
  instrument : String
  oldPrice : ℚ
  newPrice : ℚ
  percentChange : ℚ
  timestamp : Nat
deriving DecidableEq

/-- Assignment `table[key] = value` on a table object. -/
def setKey (table : String → Option ℚ) (key : String) (value : ℚ) : String → Option ℚ :=
  fun k => if k = key then some value else table k

/-- Mutable state of the detector module: the `lastKnownPrices` object and the records
handed to `appendSpike`, oldest first. -/
structure DetectorState where
  lastKnownPrices : String → Option ℚ
  spikeLog : List SpikeEvent

/-- The literal that initialises `lastKnownPrices` (lines 7-12). -/
def lastKnownPricesInit : String → Option ℚ :=
  fun k =>
    if k = "NSE:ACC" then some 1800
    else if k = "NSE:SBIN" then some 750
    else if k = "NSE:TCS" then some 3300
    else if k = "NSE:INFY" then some 1500
    else none

/-- Detector state when the module has just been loaded. -/
def DetectorState.initial : DetectorState :=
  { lastKnownPrices := lastKnownPricesInit, spikeLog := [] }

/-- The constant `SPIKE_THRESHOLD = 0.10`. -/
def SPIKE_THRESHOLD : ℚ := 10 / 100

/-- The function `detectAndLog(tick)`; `now` is the value `Date.now()` returns during the
call. The test `!oldPrice` succeeds when the entry is `undefined` or `0`. The arithmetic
is exact; `detectAndLogDouble` is the same function with every arithmetic result rounded
to binary64. -/
def detectAndLog (now : Nat) (s : DetectorState) (tick : PriceTick) :
    Option SpikeEvent × DetectorState :=
  let instrument := tick.instrument
  let newPrice := tick.price
  match s.lastKnownPrices instrument with
  | none =>
    (none, { s with lastKnownPrices := setKey s.lastKnownPrices instrument newPrice })
  | some oldPrice =>
    if oldPrice = 0 then
      (none, { s with lastKnownPrices := setKey s.lastKnownPrices instrument newPrice })
    else
      let priceChange := newPrice - oldPrice
      let percentChange := priceChange / oldPrice
      let s1 : DetectorState :=
        { s with lastKnownPrices := setKey s.lastKnownPrices instrument newPrice }
      if |percentChange| ≥ SPIKE_THRESHOLD then
        let spikeEvent : SpikeEvent :=
          { instrument := instrument
            oldPrice := oldPrice
            newPrice := newPrice
            percentChange := percentChange * 100
            timestamp := now }
        (some spikeEvent, { s1 with spikeLog := s1.spikeLog ++ [spikeEvent] })
      else
        (none, s1)

/-- A detector table holding a single entry. -/
def singleEntry (instrument : String) (price : ℚ) : DetectorState :=
  { lastKnownPrices := setKey (fun _ => none) instrument price, spikeLog := [] }

/-- Feeding ticks to `detectAndLog` one after another; each tick comes with the clock
value read during its call. Returns the results in call order and the final state. -/
def feed (s : DetectorState) : List (Nat × PriceTick) → List (Option SpikeEvent) × DetectorState
  | [] => ([], s)
  | (now, tick) :: rest =>
    let r := detectAndLog now s tick
    let rr := feed r.2 rest
    (r.1 :: rr.1, rr.2)

/-- The most recent tick of `instrument` in a sequence of calls, if there is one. -/
def lastTickOf (instrument : String) (calls : List (Nat × PriceTick)) : Option PriceTick :=
  (calls.reverse.find? (fun c => decide (c.2.instrument = instrument))).map Prod.snd

/-! ## `modules/tickGenerator.js` -/

/-- The array `INSTRUMENTS`. -/
def INSTRUMENTS : List String := ["NSE:ACC", "NSE:SBIN", "NSE:TCS", "NSE:INFY"]

/-- A value returned by `Math.random()`: a number in `[0, 1)`. -/
structure RandomDraw where
  val : ℚ
  nonneg : 0 ≤ val
  lt_one : val < 1

/-- The `Math.random()` results one call of `generateNewTick` can consume, in call order:
instrument choice, base factor, forced-spike test, and, on the forced-spike branch only,
spike size and spike sign. -/
structure Draws where
  pick : RandomDraw
  base : RandomDraw
  gate : RandomDraw
  size : RandomDraw
  sign : RandomDraw

/-- The index `Math.floor(Math.random() * INSTRUMENTS.length)`; it is below 4 because the
draw is below 1. -/
def pickIndex (r : RandomDraw) : Fin 4 :=
  ⟨(⌊r.val * 4⌋).toNat, by
    have h1 : ⌊r.val * 4⌋ < 4 := by
      rw [Int.floor_lt]
      have := r.lt_one
      push_cast
      linarith
    omega⟩

/-- The element `INSTRUMENTS[i]`. -/
def instrumentAt (i : Fin 4) : String :=
  INSTRUMENTS.get ⟨i.1, by simp [INSTRUMENTS]⟩

/-- Mutable state of the generator module: the `currentPrices` object, whose keys are
exactly the four entries of `INSTRUMENTS`, indexed by position in that array. -/
structure GeneratorState where
  currentPrices : Fin 4 → ℚ

/-- The literal that initialises `currentPrices` (lines 7-12). -/
def GeneratorState.initial : GeneratorState :=
  { currentPrices := ![1800, 750, 3300, 1500] }

/-- The composition `parseFloat(x.toFixed(2))`: the nearest multiple of `0.01`, the larger
one when two are equally near. -/
def toFixed2 (x : ℚ) : ℚ := (⌊x * 100 + 1 / 2⌋ : ℤ) / 100

/-- The value of `randomFactor` when line 37 is reached. -/
def randomFactor (d : Draws) : ℚ :=
  let baseVolatility : ℚ := 1 / 100
  let randomFactor := d.base.val * baseVolatility - baseVolatility / 2
  if d.gate.val < 2 / 10000 then
    let hugeSpikeFactor := d.size.val * (5 / 100) + 10 / 100
    if d.sign.val > 1 / 2 then hugeSpikeFactor else -hugeSpikeFactor
  else
    randomFactor

/-- The function `generateNewTick()`. -/
def generateNewTick (d : Draws) (g : GeneratorState) : PriceTick × GeneratorState :=
  let i := pickIndex d.pick
  let oldPrice := g.currentPrices i
  let newPrice := oldPrice * (1 + randomFactor d)
  let newPrice := toFixed2 (max (1 / 100) newPrice)
  ({ instrument := instrumentAt i, price := newPrice },
   { currentPrices := Function.update g.currentPrices i newPrice })

/-! ## `server.js` -/

/-- A tick as it sits on the queue: the instrument's price and the field `time_sent`. -/
structure FullTick where
  instrument : String
  price : ℚ
  time_sent : Nat
deriving DecidableEq

/-- The object `{ ...newPriceTick, time_sent: sentAt }`. -/
def stampTick (newPriceTick : PriceTick) (sentAt : Nat) : FullTick :=
  { instrument := newPriceTick.instrument, price := newPriceTick.price, time_sent := sentAt }

/-- The object `priceData` handed to the detector: the tick without `time_sent`. -/
def FullTick.priceData (t : FullTick) : PriceTick :=
  { instrument := t.instrument, price := t.price }

/-- A message passed to `io.emit`. -/
inductive Broadcast where
  | priceUpdate (tick : FullTick) (spikes : List SpikeEvent)
  | status (running : Bool)
deriving DecidableEq

/-- State of the server process. `isRunning`, `timeoutId` and `tickQueue` are the module
variables of `server.js`; `detector` and `generator` are the states of the two imported
modules. `emitted` lists the `io.emit` calls and `produced` the `tickQueue.push` calls,
oldest first. `timers` holds the handles of the `setTimeout(generateLoop, 1)` calls that
have neither fired nor been cleared, `nextTimer` is the next unused handle, and
`immediates` counts the `setImmediate(processTickQueue)` callbacks not yet run. -/
structure ServerState where
  isRunning : Bool
  timeoutId : Option Nat
  tickQueue : List FullTick
  detector : DetectorState
  generator : GeneratorState
  emitted : List Broadcast
  produced : List FullTick
  timers : List Nat
  nextTimer : Nat
  immediates : Nat

/-- State of the process once `server.js` has been loaded. -/
def ServerState.initial : ServerState :=
  { isRunning := false
    timeoutId := none
    tickQueue := []
    detector := DetectorState.initial
    generator := GeneratorState.initial
    emitted := []
    produced := []
    timers := []
    nextTimer := 0
    immediates := 0 }

/-- The value of `event ? [event] : []`. -/
def spikesOf : Option SpikeEvent → List SpikeEvent
  | some event => [event]
  | none => []

/-- The `for` loop of `processTickQueue` (lines 36-51): `n` iterations remain and `i` is
the loop counter; `clock i` is the value of `Date.now()` during iteration `i`. The loop
bound never exceeds the queue length, so `shift()` always yields a tick. -/
def drainBatch (clock : Nat → Nat) : Nat → Nat → ServerState → ServerState
  | 0, _, s => s
  | n + 1, i, s =>
    match s.tickQueue with
    | [] => s
    | fullTick :: rest =>
      let r := detectAndLog (clock i) s.detector fullTick.priceData
      drainBatch clock n (i + 1)
        { s with
          tickQueue := rest
          detector := r.2
          emitted := s.emitted ++ [Broadcast.priceUpdate fullTick (spikesOf r.1)] }

/-- The function `processTickQueue()`, one turn of the consumer. -/
def processTickQueue (clock : Nat → Nat) (s : ServerState) : ServerState :=
  if !s.isRunning then s
  else if s.tickQueue.length = 0 then { s with immediates := s.immediates + 1 }
  else
    let batchSize := min 10 s.tickQueue.length
    let s1 := drainBatch clock batchSize 0 s
    { s1 with immediates := s1.immediates + 1 }

/-- The closure `generateLoop` of `startGenerator`; `d` are the random draws of its call
to `generateNewTick` and `sentAt` is the value of `Date.now()`. -/
def generateLoop (d : Draws) (sentAt : Nat) (s : ServerState) : ServerState :=
  if !s.isRunning then s
  else
    let r := generateNewTick d s.generator
    let fullTick := stampTick r.1 sentAt
    { s with
      generator := r.2
      tickQueue := s.tickQueue ++ [fullTick]
      produced := s.produced ++ [fullTick]
      timeoutId := some s.nextTimer
      timers := s.timers ++ [s.nextTimer]
      nextTimer := s.nextTimer + 1 }

/-- The function `startGenerator()`. -/
def startGenerator (d : Draws) (sentAt : Nat) (clock : Nat → Nat) (s : ServerState) :
    ServerState :=
  if s.isRunning then s
  else
    let s1 := { s with isRunning := true }
    let s2 := generateLoop d sentAt s1
    processTickQueue clock s2

/-- The function `stopGenerator()`. A timer handle is an object, so `if (timeoutId)`
tests whether the variable is non-null. -/
def stopGenerator (s : ServerState) : ServerState :=
  if !s.isRunning then s
  else
    let s1 := { s with isRunning := false }
    match s1.timeoutId with
    | some id => { s1 with timers := s1.timers.filter (fun t => t != id), timeoutId := none }
    | none => s1

/-- The handler of the socket message `startSimulation`. -/
def onStartSimulation (d : Draws) (sentAt : Nat) (clock : Nat → Nat) (s : ServerState) :
    ServerState :=
  let s1 := startGenerator d sentAt clock s
  { s1 with emitted := s1.emitted ++ [Broadcast.status true] }

/-- The handler of the socket message `stopSimulation`. -/
def onStopSimulation (s : ServerState) : ServerState :=
  let s1 := stopGenerator s
  { s1 with emitted := s1.emitted ++ [Broadcast.status false] }

/-- The handler of `disconnect`, which only writes to the console. -/
def onDisconnect (s : ServerState) : ServerState := s

/-- What the event loop can run next: a socket message handler, a timer callback for
handle `id`, or a pending `setImmediate` callback. The arguments are the environment
reads made by the callback. -/
inductive Event where
  | startSimulation (d : Draws) (sentAt : Nat) (clock : Nat → Nat)
  | stopSimulation
  | disconnect
  | timerFires (id : Nat) (d : Draws) (sentAt : Nat)
  | immediateFires (clock : Nat → Nat)

/-- Whether the event is a `startSimulation` message. -/
def Event.isStart : Event → Bool
  | .startSimulation _ _ _ => true
  | _ => false

/-- One callback run by the event loop. A timer fires only while its handle is active and a
`setImmediate` callback runs only if one is pending; otherwise nothing happens. -/
def step (s : ServerState) : Event → ServerState
  | .startSimulation d sentAt clock => onStartSimulation d sentAt clock s
  | .stopSimulation => onStopSimulation s
  | .disconnect => onDisconnect s
  | .timerFires id d sentAt =>
    if id ∈ s.timers then
      generateLoop d sentAt { s with timers := s.timers.filter (fun t => t != id) }
    else s
  | .immediateFires clock =>
    if 0 < s.immediates then
      processTickQueue clock { s with immediates := s.immediates - 1 }
    else s

/-- A run of the event loop. -/
def run (s : ServerState) (events : List Event) : ServerState :=
  events.foldl step s

/-- The ticks carried by the `priceUpdate` messages of a broadcast log, in order. -/
def broadcastTicks : List Broadcast → List FullTick
  | [] => []
  | Broadcast.priceUpdate tick _ :: rest => tick :: broadcastTicks rest
  | Broadcast.status _ :: rest => broadcastTicks rest

/-- The `status` messages of a broadcast log, in order. -/
def statusFlags : List Broadcast → List Bool
  | [] => []
  | Broadcast.priceUpdate _ _ :: rest => statusFlags rest
  | Broadcast.status running :: rest => running :: statusFlags rest

/-- Running a list of ticks through the detector in order, producing one `priceUpdate`
per tick; `i` numbers the first call. This states what a drain turn does to the ticks it
removes, independently of the loop in `drainBatch` and of the helpers that loop uses: the
detector receives the tick's instrument and price, and the message carries the full tick
and the list `[event]` or `[]`. -/
def detectEach (clock : Nat → Nat) (i : Nat) (det : DetectorState) :
    List FullTick → List Broadcast × DetectorState
  | [] => ([], det)
  | tick :: rest =>
    let r := detectAndLog (clock i) det { instrument := tick.instrument, price := tick.price }
    let rr := detectEach clock (i + 1) r.2 rest
    (Broadcast.priceUpdate tick
        (match r.1 with
         | some event => [event]
         | none => []) :: rr.1,
      rr.2)

/-- The detector calls a drain turn is to make for the ticks it removes: one per tick, in
queue order, with the tick's instrument and price; `i` numbers the first call. -/
def detectorCalls (clock : Nat → Nat) (i : Nat) : List FullTick → List (Nat × PriceTick)
  | [] => []
  | tick :: rest =>
    (clock i, { instrument := tick.instrument, price := tick.price }) ::
      detectorCalls clock (i + 1) rest

/-- The `priceUpdate` message for a tick and the detector's result for it. -/
def priceUpdateFor (tick : FullTick) (result : Option SpikeEvent) : Broadcast :=
  match result with
  | some event => Broadcast.priceUpdate tick [event]
  | none => Broadcast.priceUpdate tick []

/-- Draws that pick `INSTRUMENTS[2]`, give a base factor of 0 and do not force a spike. -/
def sampleDraws : Draws :=
  { pick := ⟨1 / 2, by norm_num, by norm_num⟩
    base := ⟨1 / 2, by norm_num, by norm_num⟩
    gate := ⟨1 / 2, by norm_num, by norm_num⟩
    size := ⟨0, by norm_num, by norm_num⟩
    sign := ⟨0, by norm_num, by norm_num⟩ }

/-- A Running server state with twelve ticks waiting in the queue. -/
def sampleRunning : ServerState :=
  { ServerState.initial with
    isRunning := true
    tickQueue := (List.range 12).map (fun n => { instrument := "NSE:ACC", price := 1800, time_sent := n })
    produced := (List.range 12).map (fun n => { instrument := "NSE:ACC", price := 1800, time_sent := n })
    immediates := 1 }

/-- Draws that pick `INSTRUMENTS[0]` and take the forced-spike branch with an upward
factor of `0.10 + 0.05 / 32768`. -/
def forcedUpDraws : Draws :=
  { pick := ⟨0, by norm_num, by norm_num⟩
    base := ⟨1 / 2, by norm_num, by norm_num⟩
    gate := ⟨1 / 10000, by norm_num, by norm_num⟩
    size := ⟨1 / 32768, by norm_num, by norm_num⟩
    sign := ⟨3 / 4, by norm_num, by norm_num⟩ }

/-- A generator state in which NSE:ACC has moved from 1800.00 to 1800.01. -/
def accAt180001 : GeneratorState :=
  { currentPrices := ![180001 / 100, 750, 3300, 1500] }

/-! ## `Dashboard.jsx`

The state of the `Dashboard` component that the socket handlers and the metric
calculations use. Theme, filter and selection state, which only affect rendering, are left
out. A displayed metric is `none` for the text `N/A` and `some q` for a numeral of value
`q`. Timestamps are natural numbers of milliseconds; differences of timestamps are
integers. -/

/-- The constant `MAX_HISTORY_POINTS`. -/
def MAX_HISTORY_POINTS : Nat := 500

/-- The constant `LATENCY_BUFFER_SIZE`. -/
def LATENCY_BUFFER_SIZE : Nat := 1000

/-- The constant `MIN_CALCULATION_TIME_MS`. -/
def MIN_CALCULATION_TIME_MS : ℤ := 500

/-- The constant `INITIAL_PRICES`. -/
def INITIAL_PRICES : String → Option ℚ :=
  fun k =>
    if k = "NSE:ACC" then some 1800
    else if k = "NSE:SBIN" then some 750
    else if k = "NSE:TCS" then some 3300
    else if k = "NSE:INFY" then some 1500
    else none

/-- An entry `{ price, timestamp }` of a price history. -/
structure PricePoint where
  price : ℚ
  timestamp : Nat
deriving DecidableEq

/-- The call `arr.slice(-n)` for a positive `n`: the last `n` elements, or the whole array
when it has fewer. -/
def sliceLast {α : Type} (n : Nat) (arr : List α) : List α :=
  arr.drop (arr.length - n)

/-- The value of the numeral `x.toFixed(digits)`: the magnitude is rounded to the nearest
multiple of `10^-digits`, upwards when two are equally near, and the sign is kept. -/
def toFixed (digits : Nat) (x : ℚ) : ℚ :=
  if x < 0 then -(((⌊(-x) * 10 ^ digits + 1 / 2⌋ : ℤ) : ℚ) / 10 ^ digits)
  else ((⌊x * 10 ^ digits + 1 / 2⌋ : ℤ) : ℚ) / 10 ^ digits

/-- The function `calculateAverage(arr)`; `reduce` without an initial value starts from
the first element. -/
def calculateAverage (arr : List ℤ) : ℚ :=
  match arr with
  | [] => 0
  | a :: rest => ((rest.foldl (fun a b => a + b) a : ℤ) : ℚ) / (arr.length : ℚ)

/-- The value of the local `variance` of `calculateVolatility(prices)` when `Math.sqrt` is
called. -/
def volatilityVariance (prices : List PricePoint) : ℚ :=
  let values := prices.map (fun d => d.price)
  let mean := values.foldl (fun sum current => sum + current) 0 / (values.length : ℚ)
  values.foldl (fun sum current => sum + (current - mean) ^ 2) 0 / (values.length : ℚ)

/-- The function `calculateVolatility(prices)`. `Math.sqrt` is the real square root, so
the result is a real number; everything before that call is `volatilityVariance`. -/
noncomputable def calculateVolatility (prices : List PricePoint) : ℝ :=
  if prices.length < 2 then 0
  else Real.sqrt ((volatilityVariance prices : ℚ) : ℝ)

/-- The state variable `finalMetrics`. -/
structure FinalMetrics where
  tickRate : Option ℚ
  latency : Option ℚ
deriving DecidableEq

/-- State of one `Dashboard` component: its `useState` variables and the ref
`prevPricesRef` (`prevPrices`). -/
structure DashboardState where
  prices : String → Option ℚ
  prevPrices : String → Option ℚ
  spikes : List SpikeEvent
  isConnected : Bool
  isRunning : Bool
  startTime : Option Nat
  systemTicks : Nat
  finalMetrics : FinalMetrics
  priceHistory : String → Option (List PricePoint)
  latencyBuffer : List ℤ

/-- The initial values given to `useState` and `useRef`, with an empty session log. -/
def DashboardState.initial : DashboardState :=
  { prices := INITIAL_PRICES
    prevPrices := INITIAL_PRICES
    spikes := []
    isConnected := false
    isRunning := false
    startTime := none
    systemTicks := 0
    finalMetrics := { tickRate := none, latency := none }
    priceHistory := fun k => if k ∈ INSTRUMENTS then some [] else none
    latencyBuffer := [] }

/-- The state variables that the body of the `status` handler reads directly (not through
an updater function). -/
structure HandlerScope where
  startTime : Option Nat
  systemTicks : Nat
  latencyBuffer : List ℤ

/-- The scope the registered handlers close over. They are created by the effect
`useEffect(() => { ... }, [])` (lines 249-337), which runs once after the first render, so
the variables they read are those of the first render: the initial values. -/
def mountScope : HandlerScope :=
  { startTime := DashboardState.initial.startTime
    systemTicks := DashboardState.initial.systemTicks
    latencyBuffer := DashboardState.initial.latencyBuffer }

/-- The scope a handler would have if it were created in the render of state `s`. -/
def scopeOf (s : DashboardState) : HandlerScope :=
  { startTime := s.startTime, systemTicks := s.systemTicks, latencyBuffer := s.latencyBuffer }

/-- The handler of `status` (lines 270-294); `now` is the value of `Date.now()`. The
variables `startTime`, `systemTicks` and `latencyBuffer` are read from `scope`. -/
def onStatus (scope : HandlerScope) (now : Nat) (running : Bool) (s : DashboardState) :
    DashboardState :=
  let s1 := { s with isRunning := running }
  if running then
    { s1 with
      startTime := some now
      systemTicks := 0
      latencyBuffer := []
      finalMetrics := { tickRate := none, latency := none } }
  else
    match scope.startTime with
    | none => s1
    | some startTime =>
      if startTime = 0 then s1
      else
        let finalElapsedTime : ℤ := (now : ℤ) - (startTime : ℤ)
        let finalTickRate : Option ℚ :=
          if finalElapsedTime ≥ MIN_CALCULATION_TIME_MS then
            some (toFixed 1 ((scope.systemTicks : ℚ) / ((finalElapsedTime : ℚ) / 1000)))
          else none
        let finalAvgLatency := toFixed 2 (calculateAverage scope.latencyBuffer)
        { s1 with
          finalMetrics := { tickRate := finalTickRate, latency := some finalAvgLatency }
          startTime := none }

/-- The payload of a `priceUpdate` message together with the value `timeReceived` of
`Date.now()` at its arrival. -/
structure PriceUpdate where
  timeReceived : Nat
  tick : FullTick
  spikes : List SpikeEvent

/-- The handler of `priceUpdate` (lines 296-336). All its state changes go through updater
functions, which receive the current state. -/
def onPriceUpdate (u : PriceUpdate) (s : DashboardState) : DashboardState :=
  let instrument := u.tick.instrument
  let price := u.tick.price
  let timeSent := u.tick.time_sent
  let s1 := { s with systemTicks := s.systemTicks + 1 }
  let s2 :=
    if timeSent ≠ 0 then
      let latency : ℤ := (u.timeReceived : ℤ) - (timeSent : ℤ)
      { s1 with latencyBuffer := sliceLast LATENCY_BUFFER_SIZE (s1.latencyBuffer ++ [latency]) }
    else s1
  let s3 :=
    { s2 with
      prevPrices := fun k => if k = instrument then s2.prices instrument else s2.prevPrices k
      prices := setKey s2.prices instrument price }
  let s4 :=
    { s3 with
      priceHistory := fun k =>
        if k = instrument then
          some (sliceLast MAX_HISTORY_POINTS
            ((s3.priceHistory instrument).getD [] ++
              [{ price := price, timestamp := u.timeReceived }]))
        else s3.priceHistory k }
  match u.spikes with
  | [] => s4
  | newSpike :: _ => { s4 with spikes := (newSpike :: s4.spikes).take 100 }

/-- A message or connection event received by the component's socket. -/
inductive DashEvent where
  | connect
  | disconnect
  | initialData (initialPrices : String → Option ℚ)
  | status (now : Nat) (running : Bool)
  | priceUpdate (u : PriceUpdate)

/-- The handler registered for each event. -/
def dashStep (s : DashboardState) : DashEvent → DashboardState
  | .connect => { s with isConnected := true }
  | .disconnect => { s with isConnected := false, isRunning := false }
  | .initialData initialPrices => { s with prices := initialPrices, prevPrices := initialPrices }
  | .status now running => onStatus mountScope now running s
  | .priceUpdate u => onPriceUpdate u s

/-- The component's state after a sequence of events. -/
def dashRun (s : DashboardState) (events : List DashEvent) : DashboardState :=
  events.foldl dashStep s

/-- The render value `elapsedTime`; `currentTime` is the value of `Date.now()`. -/
def elapsedTime (currentTime : Nat) (s : DashboardState) : ℤ :=
  match s.startTime with
  | none => 0
  | some startTime =>
    if s.isRunning && startTime != 0 then (currentTime : ℤ) - (startTime : ℤ) else 0

/-- The render value `liveTicksPerSecond`. -/
def liveTicksPerSecond (currentTime : Nat) (s : DashboardState) : Option ℚ :=
  if s.isRunning && decide (elapsedTime currentTime s ≥ MIN_CALCULATION_TIME_MS) then
    some (toFixed 1 ((s.systemTicks : ℚ) / ((elapsedTime currentTime s : ℚ) / 1000)))
  else none

/-- The render value `liveAvgLatency`. -/
def liveAvgLatency (s : DashboardState) : ℚ :=
  toFixed 2 (calculateAverage s.latencyBuffer)

/-- The render value `displayTickRate`. -/
def displayTickRate (currentTime : Nat) (s : DashboardState) : Option ℚ :=
  if s.isRunning then liveTicksPerSecond currentTime s else s.finalMetrics.tickRate

/-- The render value `displayAvgLatency`. -/
def displayAvgLatency (s : DashboardState) : Option ℚ :=
  if s.isRunning then some (liveAvgLatency s) else s.finalMetrics.latency

/-- The price history of an instrument, `priceHistory[instrument] || []`. -/
def historyOf (s : DashboardState) (instrument : String) : List PricePoint :=
  (s.priceHistory instrument).getD []

/-- The latency samples a sequence of `priceUpdate` messages contributes, in arrival
order: one per message whose `time_sent` is non-zero. -/
def latencySamples : List PriceUpdate → List ℤ
  | [] => []
  | u :: rest =>
    if u.tick.time_sent ≠ 0 then
      ((u.timeReceived : ℤ) - (u.tick.time_sent : ℤ)) :: latencySamples rest
    else latencySamples rest

/-- The history points a sequence of `priceUpdate` messages contributes to an instrument,
in arrival order. -/
def historyPoints (instrument : String) : List PriceUpdate → List PricePoint
  | [] => []
  | u :: rest =>
    if u.tick.instrument = instrument then
      { price := u.tick.price, timestamp := u.timeReceived } :: historyPoints instrument rest
    else historyPoints instrument rest

/-- A `priceUpdate` arrival for NSE:ACC without spikes. -/
def sampleUpdate (timeReceived timeSent : Nat) : PriceUpdate :=
  { timeReceived := timeReceived
    tick := { instrument := "NSE:ACC", price := 1801, time_sent := timeSent }
    spikes := [] }

/-- A dashboard state whose latency buffer and NSE:ACC history are full. -/
def fullWindows : DashboardState :=
  { DashboardState.initial with
    latencyBuffer := List.replicate 1000 4
    priceHistory := fun _ => some (List.replicate 500 { price := 1800, timestamp := 1 }) }

/-- A Running dashboard state: started at time 5000, 1000 ticks counted since. -/
def runningSince5000 : DashboardState :=
  { DashboardState.initial with isRunning := true, startTime := some 5000, systemTicks := 1000 }

/-- A run seen by one dashboard: start at time 1000, two ticks with latencies 5 and 7. -/
def shortRun : List DashEvent :=
  [DashEvent.status 1000 true,
   DashEvent.priceUpdate (sampleUpdate 1100 1095),
   DashEvent.priceUpdate (sampleUpdate 1600 1593)]

/-! ## Binary64 arithmetic

JavaScript numbers are IEEE 754 binary64 values. A finite one is a rational; an
arithmetic operation returns the exact result rounded to the nearest binary64 value, ties
to the even significand. Overflow to `Infinity` is not modelled. -/

/-- The integer nearest to `x`, the even one of the two when `x` lies halfway. -/
def roundHalfEven (x : ℚ) : ℤ :=
  let f := ⌊x⌋
  let r := x - f
  if r < 1 / 2 then f
  else if 1 / 2 < r then f + 1
  else if f % 2 = 0 then f
  else f + 1

/-- The binary64 value nearest to `x`: with `2 ^ e ≤ |x| < 2 ^ (e + 1)` the spacing of the
values is `2 ^ (e - 52)` (`2 ^ -1074` in the subnormal range). This is also the number a
decimal literal or `parseFloat` denotes. -/
def toDouble (x : ℚ) : ℚ :=
  if x = 0 then 0
  else
    let e := max (Int.log 2 |x|) (-1022)
    (roundHalfEven (x / 2 ^ (e - 52)) : ℚ) * 2 ^ (e - 52)

/-- The function `detectAndLog(tick)` with its arithmetic carried out in binary64: the
subtraction, the division and the multiplication by 100 each round their result, and
`SPIKE_THRESHOLD` is the binary64 value of the literal `0.10`. The stored price and the
tick's price are binary64 values. -/
def detectAndLogDouble (now : Nat) (s : DetectorState) (tick : PriceTick) :
    Option SpikeEvent × DetectorState :=
  let instrument := tick.instrument
  let newPrice := tick.price
  match s.lastKnownPrices instrument with
  | none =>
    (none, { s with lastKnownPrices := setKey s.lastKnownPrices instrument newPrice })
  | some oldPrice =>
    if oldPrice = 0 then
      (none, { s with lastKnownPrices := setKey s.lastKnownPrices instrument newPrice })
    else
      let priceChange := toDouble (newPrice - oldPrice)
      let percentChange := toDouble (priceChange / oldPrice)
      let s1 : DetectorState :=
        { s with lastKnownPrices := setKey s.lastKnownPrices instrument newPrice }
      if |percentChange| ≥ toDouble SPIKE_THRESHOLD then
        let spikeEvent : SpikeEvent :=
          { instrument := instrument
            oldPrice := oldPrice
            newPrice := newPrice
            percentChange := toDouble (percentChange * 100)
            timestamp := now }
        (some spikeEvent, { s1 with spikeLog := s1.spikeLog ++ [spikeEvent] })
      else
        (none, s1)

/-! ## Facts about `detectAndLog` -/

theorem setKey_same (table : String → Option ℚ) (key : String) (value : ℚ) :
    setKey table key value key = some value := by
  simp [setKey]

theorem setKey_other (table : String → Option ℚ) (key k : String) (value : ℚ)
    (h : k ≠ key) : setKey table key value k = table k := by
  simp [setKey, h]

theorem detectAndLog_table (now : Nat) (s : DetectorState) (tick : PriceTick) :
    (detectAndLog now s tick).2.lastKnownPrices
      = setKey s.lastKnownPrices tick.instrument tick.price := by
  cases hp : s.lastKnownPrices tick.instrument with
  | none => simp only [detectAndLog, hp]
  | some oldPrice =>
    simp only [detectAndLog, hp]
    split_ifs <;> rfl

theorem detectAndLog_event_of_stored (now : Nat) (s : DetectorState) (tick : PriceTick)
    (oldPrice : ℚ) (hold : s.lastKnownPrices tick.instrument = some oldPrice)
    (hne : oldPrice ≠ 0) :
    (detectAndLog now s tick).1 =
      if |(tick.price - oldPrice) / oldPrice| ≥ SPIKE_THRESHOLD then
        some { instrument := tick.instrument
               oldPrice := oldPrice
               newPrice := tick.price
               percentChange := (tick.price - oldPrice) / oldPrice * 100
               timestamp := now }
      else none := by
  unfold detectAndLog
  simp only [hold, hne, if_false]
  split_ifs <;> rfl

theorem detectAndLog_none_of_falsy (now : Nat) (s : DetectorState) (tick : PriceTick)
    (h : s.lastKnownPrices tick.instrument = none ∨ s.lastKnownPrices tick.instrument = some 0) :
    (detectAndLog now s tick).1 = none := by
  unfold detectAndLog
  rcases h with h | h <;> simp [h]

theorem detectAndLog_some_inv (now : Nat) (s : DetectorState) (tick : PriceTick)
    (e : SpikeEvent) (he : (detectAndLog now s tick).1 = some e) :
    ∃ oldPrice, s.lastKnownPrices tick.instrument = some oldPrice ∧ oldPrice ≠ 0 ∧
      SPIKE_THRESHOLD ≤ |(tick.price - oldPrice) / oldPrice| ∧
      e = { instrument := tick.instrument
            oldPrice := oldPrice
            newPrice := tick.price
            percentChange := (tick.price - oldPrice) / oldPrice * 100
            timestamp := now } := by
  cases hp : s.lastKnownPrices tick.instrument with
  | none =>
    rw [detectAndLog_none_of_falsy now s tick (Or.inl hp)] at he
    cases he
  | some oldPrice =>
    by_cases h0 : oldPrice = 0
    · subst h0
      rw [detectAndLog_none_of_falsy now s tick (Or.inr hp)] at he
      cases he
    · rw [detectAndLog_event_of_stored now s tick oldPrice hp h0] at he
      by_cases hs : |(tick.price - oldPrice) / oldPrice| ≥ SPIKE_THRESHOLD
      · rw [if_pos hs] at he
        exact ⟨oldPrice, rfl, h0, hs, (Option.some.inj he).symm⟩
      · rw [if_neg hs] at he
        cases he

theorem detectAndLog_falsy_state (now : Nat) (s : DetectorState) (tick : PriceTick)
    (h : s.lastKnownPrices tick.instrument = none ∨ s.lastKnownPrices tick.instrument = some 0) :
    (detectAndLog now s tick).2 =
      { s with lastKnownPrices := setKey s.lastKnownPrices tick.instrument tick.price } := by
  unfold detectAndLog
  rcases h with h | h <;> simp [h]

/-! ### Sequences of calls -/

theorem lastTickOf_nil (k : String) : lastTickOf k [] = none := rfl

theorem lastTickOf_cons (k : String) (c : Nat × PriceTick) (rest : List (Nat × PriceTick)) :
    lastTickOf k (c :: rest) =
      match lastTickOf k rest with
      | some t => some t
      | none => if c.2.instrument = k then some c.2 else none := by
  unfold lastTickOf
  rw [List.reverse_cons, List.find?_append]
  cases h : rest.reverse.find? (fun c => decide (c.2.instrument = k)) with
  | some t => simp
  | none =>
    by_cases hk : c.2.instrument = k
    · simp [List.find?_cons, hk]
    · simp [List.find?_cons, hk]

theorem lastTickOf_none_of_absent (k : String) (calls : List (Nat × PriceTick))
    (h : ∀ c ∈ calls, c.2.instrument ≠ k) : lastTickOf k calls = none := by
  induction calls with
  | nil => rfl
  | cons c rest ih =>
    rw [lastTickOf_cons, ih (fun c hc => h c (List.mem_cons_of_mem _ hc))]
    simp [h c (List.mem_cons_self _ _)]

/-- After a sequence of calls the table holds, for each instrument, the price of its most
recent tick in the sequence, or the entry it started with when the sequence has none. -/
theorem feed_table (calls : List (Nat × PriceTick)) (s : DetectorState) (k : String) :
    (feed s calls).2.lastKnownPrices k =
      match lastTickOf k calls with
      | some t => some t.price
      | none => s.lastKnownPrices k := by
  induction calls generalizing s with
  | nil => rfl
  | cons c rest ih =>
    obtain ⟨now, tick⟩ := c
    have hstep : (feed s ((now, tick) :: rest)).2 = (feed (detectAndLog now s tick).2 rest).2 := rfl
    rw [hstep, ih, lastTickOf_cons]
    cases hrest : lastTickOf k rest with
    | some t => rfl
    | none =>
      simp only [detectAndLog_table]
      by_cases hk : tick.instrument = k
      · simp [hk, setKey]
      · have hk2 : k ≠ tick.instrument := fun h => hk h.symm
        simp [hk, setKey, hk2]

/-- The result reported for the call at position `i` is the result of `detectAndLog` in
the state reached by the calls before it. -/
theorem feed_result_at (calls : List (Nat × PriceTick)) (s : DetectorState) (i : Nat)
    (c : Nat × PriceTick) (hc : calls[i]? = some c) :
    (feed s calls).1[i]? = some (detectAndLog c.1 (feed s (calls.take i)).2 c.2).1 := by
  induction calls generalizing s i with
  | nil => simp at hc
  | cons c0 rest ih =>
    obtain ⟨now, tick⟩ := c0
    cases i with
    | zero =>
      simp only [List.getElem?_cons_zero, Option.some.injEq] at hc
      subst hc
      have h1 : (feed s ((now, tick) :: rest)).1
          = (detectAndLog now s tick).1 :: (feed (detectAndLog now s tick).2 rest).1 := rfl
      rw [h1, List.getElem?_cons_zero]
      rfl
    | succ j =>
      simp only [List.getElem?_cons_succ] at hc
      have h1 : (feed s ((now, tick) :: rest)).1
          = (detectAndLog now s tick).1 :: (feed (detectAndLog now s tick).2 rest).1 := rfl
      have h2 : (feed s (((now, tick) :: rest).take (j + 1))).2
          = (feed (detectAndLog now s tick).2 (rest.take j)).2 := rfl
      rw [h1, h2, List.getElem?_cons_succ]
      exact ih _ j hc

/-! ### Claims about the detector -/

/-- The threshold rule in exact arithmetic: when a non-zero prior price `oldPrice` is
stored for the tick's instrument, the exact reading of `detectAndLog` returns a SpikeEvent
if and only if `|(newPrice - oldPrice) / oldPrice| >= 0.10`, and returns null otherwise. -/
theorem detectAndLog_spike_iff_threshold (now : Nat) (s : DetectorState) (tick : PriceTick)
    (oldPrice : ℚ) (hold : s.lastKnownPrices tick.instrument = some oldPrice)
    (hne : oldPrice ≠ 0) :
    ((∃ e, (detectAndLog now s tick).1 = some e) ↔
        |(tick.price - oldPrice) / oldPrice| ≥ 1 / 10) ∧
      (¬ |(tick.price - oldPrice) / oldPrice| ≥ 1 / 10 → (detectAndLog now s tick).1 = none) := by
  have hthr : SPIKE_THRESHOLD = 1 / 10 := by norm_num [SPIKE_THRESHOLD]
  rw [detectAndLog_event_of_stored now s tick oldPrice hold hne, hthr]
  by_cases hs : |(tick.price - oldPrice) / oldPrice| ≥ 1 / 10
  · simp [hs]
  · simp [hs]

/-- The scripted case in exact arithmetic: with baseline 1000, a tick at 1000 (0%)
returns null and a tick at 1150 (+15%) returns an event. -/
theorem detectAndLog_spike_iff_threshold_witness :
    (detectAndLog 0 (singleEntry "X" 1000) { instrument := "X", price := 1000 }).1 = none ∧
      (∃ e, (detectAndLog 0 (singleEntry "X" 1000) { instrument := "X", price := 1150 }).1
        = some e) :=
  ⟨(detectAndLog_spike_iff_threshold 0 (singleEntry "X" 1000)
      { instrument := "X", price := 1000 } 1000 (by simp [singleEntry, setKey])
      (by norm_num)).2 (by norm_num),
   (detectAndLog_spike_iff_threshold 0 (singleEntry "X" 1000)
      { instrument := "X", price := 1150 } 1000 (by simp [singleEntry, setKey])
      (by norm_num)).1.mpr (by norm_num [abs_of_nonneg])⟩

/-- C2: after `detectAndLog` returns, the stored last price of the tick's instrument is
the tick's price, whichever branch the call took. -/
theorem detectAndLog_stores_newPrice (now : Nat) (s : DetectorState) (tick : PriceTick) :
    (detectAndLog now s tick).2.lastKnownPrices tick.instrument = some tick.price := by
  rw [detectAndLog_table, setKey_same]

/-- C3: every SpikeEvent returned by `detectAndLog` carries the tick's instrument and
price, has `oldPrice` equal to the price stored for the instrument before the call, has
`percentChange = (newPrice - oldPrice) / oldPrice * 100`, and `|percentChange| >= 10`. -/
theorem detectAndLog_event_fields (now : Nat) (s : DetectorState) (tick : PriceTick)
    (e : SpikeEvent) (he : (detectAndLog now s tick).1 = some e) :
    e.instrument = tick.instrument ∧ e.newPrice = tick.price ∧
      s.lastKnownPrices tick.instrument = some e.oldPrice ∧
      e.percentChange = (e.newPrice - e.oldPrice) / e.oldPrice * 100 ∧
      |e.percentChange| ≥ 10 := by
  obtain ⟨oldPrice, hold, _, hs, rfl⟩ := detectAndLog_some_inv now s tick e he
  refine ⟨rfl, rfl, hold, rfl, ?_⟩
  show |(tick.price - oldPrice) / oldPrice * 100| ≥ 10
  rw [abs_mul]
  have h100 : |(100 : ℚ)| = 100 := by norm_num
  rw [h100]
  have hthr : SPIKE_THRESHOLD = 1 / 10 := by norm_num [SPIKE_THRESHOLD]
  rw [hthr] at hs
  linarith

/-- C3 at baseline 1000 and a tick at 1150: the event reports 1000, 1150 and 15%. -/
theorem detectAndLog_event_fields_witness :
    (detectAndLog 7 (singleEntry "X" 1000) { instrument := "X", price := 1150 }).1
        = some { instrument := "X", oldPrice := 1000, newPrice := 1150, percentChange := 15,
                 timestamp := 7 } ∧
      ("X" = "X" ∧ (1150 : ℚ) = 1150 ∧
        (singleEntry "X" 1000).lastKnownPrices "X" = some 1000 ∧
        (15 : ℚ) = (1150 - 1000) / 1000 * 100 ∧ |(15 : ℚ)| ≥ 10) :=
  have h : (detectAndLog 7 (singleEntry "X" 1000) { instrument := "X", price := 1150 }).1
      = some { instrument := "X", oldPrice := 1000, newPrice := 1150, percentChange := 15,
               timestamp := 7 } := by
    rw [detectAndLog_event_of_stored 7 (singleEntry "X" 1000) _ 1000
      (by simp [singleEntry, setKey]) (by norm_num)]
    norm_num [SPIKE_THRESHOLD, abs_of_nonneg]
  ⟨h, detectAndLog_event_fields 7 (singleEntry "X" 1000) { instrument := "X", price := 1150 }
    { instrument := "X", oldPrice := 1000, newPrice := 1150, percentChange := 15,
      timestamp := 7 } h⟩

/-- C4 as stated fails: from the freshly loaded module, the tick NSE:ACC at 2000 that
follows a tick of NSE:SBIN yields a SpikeEvent whose `oldPrice` is the seed 1800, although
no earlier tick of NSE:ACC is in the sequence. -/
theorem spike_against_seed_without_earlier_tick :
    (feed DetectorState.initial
        [(0, { instrument := "NSE:SBIN", price := 751 }),
         (1, { instrument := "NSE:ACC", price := 2000 })]).1
      = [none, some { instrument := "NSE:ACC", oldPrice := 1800, newPrice := 2000,
                      percentChange := 100 / 9, timestamp := 1 }] ∧
      lastTickOf "NSE:ACC" [(0, { instrument := "NSE:SBIN", price := 751 })] = none := by
  constructor
  · have h1 : (detectAndLog 0 DetectorState.initial { instrument := "NSE:SBIN", price := 751 }).1
        = none := by
      rw [detectAndLog_event_of_stored 0 DetectorState.initial _ 750
        (by simp [DetectorState.initial, lastKnownPricesInit]) (by norm_num)]
      norm_num [SPIKE_THRESHOLD, abs_of_nonneg]
    have h2 : (detectAndLog 1
        (detectAndLog 0 DetectorState.initial { instrument := "NSE:SBIN", price := 751 }).2
        { instrument := "NSE:ACC", price := 2000 }).1
        = some { instrument := "NSE:ACC", oldPrice := 1800, newPrice := 2000,
                 percentChange := 100 / 9, timestamp := 1 } := by
      rw [detectAndLog_event_of_stored 1 _ _ 1800
        (by simp [detectAndLog_table, setKey, DetectorState.initial, lastKnownPricesInit])
        (by norm_num)]
      norm_num [SPIKE_THRESHOLD, abs_of_nonneg]
    simp only [feed, h1, h2]
  · simp [lastTickOf]

/-- C4, amended: for every sequence of ticks fed to `detectAndLog` one after another from
any detector state, every SpikeEvent emitted for a tick has `oldPrice` equal to the price
of the most recent earlier tick of the same instrument in the sequence, or, when the
sequence has no earlier tick of that instrument, to the price stored for the instrument
before the sequence. -/
theorem spike_oldPrice_is_latest_price (s : DetectorState) (calls : List (Nat × PriceTick))
    (i : Nat) (c : Nat × PriceTick) (e : SpikeEvent) (hc : calls[i]? = some c)
    (he : (feed s calls).1[i]? = some (some e)) :
    match lastTickOf c.2.instrument (calls.take i) with
    | some t => e.oldPrice = t.price
    | none => s.lastKnownPrices c.2.instrument = some e.oldPrice := by
  rw [feed_result_at calls s i c hc] at he
  have he2 := Option.some.inj he
  obtain ⟨oldPrice, hold, _, _, rfl⟩ := detectAndLog_some_inv _ _ _ e he2
  rw [feed_table] at hold
  cases hl : lastTickOf c.2.instrument (calls.take i) with
  | some t =>
    rw [hl] at hold
    exact (Option.some.inj hold).symm
  | none =>
    rw [hl] at hold
    exact hold

/-- C4, the scripted case: feeding A@100, A@105, A@120 leaves the baseline at 105 after
the second tick, and the third tick is reported as a move from 105 to 120. -/
theorem spike_oldPrice_is_latest_price_witness :
    (feed DetectorState.initial
        [(0, { instrument := "A", price := 100 }), (1, { instrument := "A", price := 105 })]
      ).2.lastKnownPrices "A" = some 105 ∧
    (feed DetectorState.initial
        [(0, { instrument := "A", price := 100 }), (1, { instrument := "A", price := 105 }),
         (2, { instrument := "A", price := 120 })]).1
      = [none, none, some { instrument := "A", oldPrice := 105, newPrice := 120,
                            percentChange := 100 / 7, timestamp := 2 }] ∧
    (match lastTickOf "A"
        ([(0, ({ instrument := "A", price := 100 } : PriceTick)),
          (1, { instrument := "A", price := 105 }),
          (2, { instrument := "A", price := 120 })].take 2) with
      | some t => (105 : ℚ) = t.price
      | none => DetectorState.initial.lastKnownPrices "A" = some 105) :=
  have h1 : (detectAndLog 0 DetectorState.initial { instrument := "A", price := 100 }).1
      = none :=
    detectAndLog_none_of_falsy _ _ _
      (Or.inl (by simp [DetectorState.initial, lastKnownPricesInit]))
  have h2 : (detectAndLog 1
      (detectAndLog 0 DetectorState.initial { instrument := "A", price := 100 }).2
      { instrument := "A", price := 105 }).1 = none := by
    rw [detectAndLog_event_of_stored 1 _ _ 100 (by simp [detectAndLog_table, setKey])
      (by norm_num)]
    norm_num [SPIKE_THRESHOLD, abs_of_nonneg]
  have h3 : (detectAndLog 2
      (detectAndLog 1
        (detectAndLog 0 DetectorState.initial { instrument := "A", price := 100 }).2
        { instrument := "A", price := 105 }).2
      { instrument := "A", price := 120 }).1
      = some { instrument := "A", oldPrice := 105, newPrice := 120,
               percentChange := 100 / 7, timestamp := 2 } := by
    rw [detectAndLog_event_of_stored 2 _ _ 105 (by simp [detectAndLog_table, setKey])
      (by norm_num)]
    norm_num [SPIKE_THRESHOLD, abs_of_nonneg]
  have hrun : (feed DetectorState.initial
        [(0, { instrument := "A", price := 100 }), (1, { instrument := "A", price := 105 }),
         (2, { instrument := "A", price := 120 })]).1
      = [none, none, some { instrument := "A", oldPrice := 105, newPrice := 120,
                            percentChange := 100 / 7, timestamp := 2 }] := by
    simp only [feed, h1, h2, h3]
  ⟨by simp [feed, detectAndLog_table, setKey], hrun,
   spike_oldPrice_is_latest_price DetectorState.initial
    [(0, { instrument := "A", price := 100 }), (1, { instrument := "A", price := 105 }),
     (2, { instrument := "A", price := 120 })] 2 (2, { instrument := "A", price := 120 })
    { instrument := "A", oldPrice := 105, newPrice := 120, percentChange := 100 / 7,
      timestamp := 2 } rfl (by rw [hrun]; rfl)⟩

/-- C5 as stated fails: the first tick the freshly loaded detector evaluates for NSE:ACC,
at price 2016, is compared with the seed 1800 and returns a SpikeEvent. -/
theorem first_tick_of_seeded_instrument_spikes :
    (detectAndLog 0 DetectorState.initial { instrument := "NSE:ACC", price := 2016 }).1
      = some { instrument := "NSE:ACC", oldPrice := 1800, newPrice := 2016,
               percentChange := 12, timestamp := 0 } := by
  rw [detectAndLog_event_of_stored 0 DetectorState.initial _ 1800
    (by simp [DetectorState.initial, lastKnownPricesInit]) (by norm_num)]
  norm_num [SPIKE_THRESHOLD, abs_of_nonneg]

/-- C5, amended: for every instrument whose stored price is absent or 0 when the detector
starts, and every price, the first tick the detector evaluates for that instrument
returns null and only sets the stored price of that instrument to the tick's price. -/
theorem first_tick_without_stored_price (s : DetectorState)
    (earlier : List (Nat × PriceTick)) (now : Nat) (tick : PriceTick)
    (hstored : s.lastKnownPrices tick.instrument = none ∨
      s.lastKnownPrices tick.instrument = some 0)
    (hfirst : ∀ c ∈ earlier, c.2.instrument ≠ tick.instrument) :
    detectAndLog now (feed s earlier).2 tick =
      (none, { (feed s earlier).2 with
        lastKnownPrices :=
          setKey (feed s earlier).2.lastKnownPrices tick.instrument tick.price }) := by
  have hkeep : (feed s earlier).2.lastKnownPrices tick.instrument
      = s.lastKnownPrices tick.instrument := by
    rw [feed_table, lastTickOf_none_of_absent _ _ hfirst]
  have hfalsy : (feed s earlier).2.lastKnownPrices tick.instrument = none ∨
      (feed s earlier).2.lastKnownPrices tick.instrument = some 0 := by
    rw [hkeep]; exact hstored
  exact Prod.ext (detectAndLog_none_of_falsy _ _ _ hfalsy)
    (detectAndLog_falsy_state _ _ _ hfalsy)

/-- C5, amended, on the freshly loaded module: after a tick of NSE:ACC, the first tick of
the unseeded instrument NSE:XYZ returns null and only stores its price. -/
theorem first_tick_without_stored_price_witness :
    detectAndLog 1
        (feed DetectorState.initial [(0, { instrument := "NSE:ACC", price := 1801 })]).2
        { instrument := "NSE:XYZ", price := 5000 } =
      (none,
        { (feed DetectorState.initial [(0, { instrument := "NSE:ACC", price := 1801 })]).2 with
          lastKnownPrices :=
            setKey
              (feed DetectorState.initial
                [(0, { instrument := "NSE:ACC", price := 1801 })]).2.lastKnownPrices
              "NSE:XYZ" 5000 }) :=
  first_tick_without_stored_price DetectorState.initial
    [(0, { instrument := "NSE:ACC", price := 1801 })] 1
    { instrument := "NSE:XYZ", price := 5000 }
    (Or.inl (by simp [DetectorState.initial, lastKnownPricesInit]))
    (by simp)

/-! ## Facts about the server pipeline -/

theorem broadcastTicks_append (a b : List Broadcast) :
    broadcastTicks (a ++ b) = broadcastTicks a ++ broadcastTicks b := by
  induction a with
  | nil => rfl
  | cons m rest ih =>
    cases m with
    | priceUpdate tick spikes => simp [broadcastTicks, ih]
    | status running => simp [broadcastTicks, ih]

theorem statusFlags_append (a b : List Broadcast) :
    statusFlags (a ++ b) = statusFlags a ++ statusFlags b := by
  induction a with
  | nil => rfl
  | cons m rest ih =>
    cases m with
    | priceUpdate tick spikes => simp [statusFlags, ih]
    | status running => simp [statusFlags, ih]

theorem broadcastTicks_detectEach (clock : Nat → Nat) (ticks : List FullTick) (i : Nat)
    (det : DetectorState) : broadcastTicks (detectEach clock i det ticks).1 = ticks := by
  induction ticks generalizing i det with
  | nil => rfl
  | cons t rest ih => simp [detectEach, broadcastTicks, ih]

theorem spikesOf_eq (r : Option SpikeEvent) :
    spikesOf r = (match r with
      | some event => [event]
      | none => []) := by
  cases r <;> rfl

theorem statusFlags_detectEach (clock : Nat → Nat) (ticks : List FullTick) (i : Nat)
    (det : DetectorState) : statusFlags (detectEach clock i det ticks).1 = [] := by
  induction ticks generalizing i det with
  | nil => rfl
  | cons t rest ih => simp [detectEach, statusFlags, ih]

/-- The loop of `processTickQueue` removes the first `n` ticks, runs them through the
detector in order and appends their `priceUpdate` messages. -/
theorem drainBatch_eq (clock : Nat → Nat) (n i : Nat) (s : ServerState) :
    drainBatch clock n i s =
      { s with
        tickQueue := s.tickQueue.drop n
        detector := (detectEach clock i s.detector (s.tickQueue.take n)).2
        emitted := s.emitted ++ (detectEach clock i s.detector (s.tickQueue.take n)).1 } := by
  induction n generalizing i s with
  | zero => simp [drainBatch, detectEach]
  | succ n ih =>
    cases hq : s.tickQueue with
    | nil =>
      have hs : drainBatch clock (n + 1) i s = s := by
        simp [drainBatch, hq]
      rw [hs]
      cases s
      simp_all [detectEach]
    | cons t rest =>
      have hs : drainBatch clock (n + 1) i s =
          drainBatch clock n (i + 1)
            { s with
              tickQueue := rest
              detector := (detectAndLog (clock i) s.detector t.priceData).2
              emitted := s.emitted ++
                [Broadcast.priceUpdate t
                  (spikesOf (detectAndLog (clock i) s.detector t.priceData).1)] } := by
        simp [drainBatch, hq]
      rw [hs, ih]
      simp [detectEach, List.append_assoc, spikesOf_eq, FullTick.priceData]

/-- One turn of the consumer while Running, as a single state update. -/
theorem processTickQueue_running (clock : Nat → Nat) (s : ServerState)
    (hrun : s.isRunning = true) :
    processTickQueue clock s =
      { s with
        tickQueue := s.tickQueue.drop (min 10 s.tickQueue.length)
        detector :=
          (detectEach clock 0 s.detector (s.tickQueue.take (min 10 s.tickQueue.length))).2
        emitted := s.emitted ++
          (detectEach clock 0 s.detector (s.tickQueue.take (min 10 s.tickQueue.length))).1
        immediates := s.immediates + 1 } := by
  unfold processTickQueue
  by_cases hlen : s.tickQueue.length = 0
  · have hnil : s.tickQueue = [] := List.length_eq_zero.mp hlen
    cases s
    simp_all [detectEach]
  · simp only [hrun, hlen, Bool.not_true, Bool.false_eq_true, if_false]
    rw [drainBatch_eq]
    simp [hrun]

theorem processTickQueue_stopped (clock : Nat → Nat) (s : ServerState)
    (hstop : s.isRunning = false) : processTickQueue clock s = s := by
  simp [processTickQueue, hstop]

theorem generateLoop_stopped (d : Draws) (sentAt : Nat) (s : ServerState)
    (hstop : s.isRunning = false) : generateLoop d sentAt s = s := by
  simp [generateLoop, hstop]

theorem stopGenerator_stopped (s : ServerState) (hstop : s.isRunning = false) :
    stopGenerator s = s := by
  simp [stopGenerator, hstop]

theorem startGenerator_running (d : Draws) (sentAt : Nat) (clock : Nat → Nat)
    (s : ServerState) (hrun : s.isRunning = true) : startGenerator d sentAt clock s = s := by
  simp [startGenerator, hrun]

theorem stopGenerator_isRunning (s : ServerState) : (stopGenerator s).isRunning = false := by
  unfold stopGenerator
  by_cases h : s.isRunning = true
  · simp only [h, Bool.not_true, Bool.false_eq_true, if_false]
    cases s.timeoutId <;> rfl
  · simp only [Bool.not_eq_true] at h
    simp [h]

theorem generateLoop_isRunning (d : Draws) (sentAt : Nat) (s : ServerState) :
    (generateLoop d sentAt s).isRunning = s.isRunning := by
  unfold generateLoop
  split_ifs <;> rfl

theorem processTickQueue_isRunning (clock : Nat → Nat) (s : ServerState) :
    (processTickQueue clock s).isRunning = s.isRunning := by
  cases h : s.isRunning with
  | false => rw [processTickQueue_stopped clock s h, h]
  | true =>
    rw [processTickQueue_running clock s h]
    exact h

theorem startGenerator_isRunning (d : Draws) (sentAt : Nat) (clock : Nat → Nat)
    (s : ServerState) : (startGenerator d sentAt clock s).isRunning = true := by
  cases h : s.isRunning with
  | true => rw [startGenerator_running d sentAt clock s h, h]
  | false =>
    simp only [startGenerator, h, Bool.false_eq_true, if_false]
    rw [processTickQueue_isRunning, generateLoop_isRunning]

theorem stopGenerator_keeps (s : ServerState) :
    (stopGenerator s).tickQueue = s.tickQueue ∧ (stopGenerator s).emitted = s.emitted ∧
      (stopGenerator s).produced = s.produced ∧ (stopGenerator s).detector = s.detector ∧
      (stopGenerator s).generator = s.generator ∧
      (stopGenerator s).immediates = s.immediates := by
  unfold stopGenerator
  by_cases h : s.isRunning = true
  · simp only [h, Bool.not_true, Bool.false_eq_true, if_false]
    cases s.timeoutId <;> simp
  · simp only [Bool.not_eq_true] at h
    simp [h]

/-- The order invariant: everything pushed so far is what has been broadcast followed by
what is still queued. -/
theorem generateLoop_order (d : Draws) (sentAt : Nat) (s : ServerState)
    (h : s.produced = broadcastTicks s.emitted ++ s.tickQueue) :
    (generateLoop d sentAt s).produced =
      broadcastTicks (generateLoop d sentAt s).emitted ++ (generateLoop d sentAt s).tickQueue := by
  unfold generateLoop
  split_ifs
  · exact h
  · simp [h]

theorem processTickQueue_order (clock : Nat → Nat) (s : ServerState)
    (h : s.produced = broadcastTicks s.emitted ++ s.tickQueue) :
    (processTickQueue clock s).produced =
      broadcastTicks (processTickQueue clock s).emitted ++ (processTickQueue clock s).tickQueue := by
  cases hr : s.isRunning with
  | false => rw [processTickQueue_stopped clock s hr]; exact h
  | true =>
    rw [processTickQueue_running clock s hr]
    simp only [broadcastTicks_append, broadcastTicks_detectEach, List.append_assoc,
      List.take_append_drop]
    exact h

theorem startGenerator_order (d : Draws) (sentAt : Nat) (clock : Nat → Nat) (s : ServerState)
    (h : s.produced = broadcastTicks s.emitted ++ s.tickQueue) :
    (startGenerator d sentAt clock s).produced =
      broadcastTicks (startGenerator d sentAt clock s).emitted ++
        (startGenerator d sentAt clock s).tickQueue := by
  unfold startGenerator
  split_ifs
  · exact h
  · exact processTickQueue_order clock _ (generateLoop_order d sentAt _ h)

theorem step_order (s : ServerState) (ev : Event)
    (h : s.produced = broadcastTicks s.emitted ++ s.tickQueue) :
    (step s ev).produced = broadcastTicks (step s ev).emitted ++ (step s ev).tickQueue := by
  cases ev with
  | startSimulation d sentAt clock =>
    have h1 := startGenerator_order d sentAt clock s h
    simp only [step, onStartSimulation, broadcastTicks_append, broadcastTicks,
      List.append_nil]
    exact h1
  | stopSimulation =>
    obtain ⟨hq, he, hp, _, _, _⟩ := stopGenerator_keeps s
    simp only [step, onStopSimulation, broadcastTicks_append, broadcastTicks,
      List.append_nil, hq, he, hp]
    exact h
  | disconnect => exact h
  | timerFires id d sentAt =>
    simp only [step]
    split_ifs
    · exact generateLoop_order d sentAt _ h
    · exact h
  | immediateFires clock =>
    simp only [step]
    split_ifs
    · exact processTickQueue_order clock _ h
    · exact h

theorem run_order (events : List Event) (s : ServerState)
    (h : s.produced = broadcastTicks s.emitted ++ s.tickQueue) :
    (run s events).produced =
      broadcastTicks (run s events).emitted ++ (run s events).tickQueue := by
  induction events generalizing s with
  | nil => exact h
  | cons ev rest ih => exact ih (step s ev) (step_order s ev h)

/-- While Stopped, a callback or message other than `startSimulation` neither pushes nor
removes a tick, leaves the detector and generator alone, and broadcasts no `priceUpdate`. -/
theorem step_stopped (s : ServerState) (ev : Event) (hstop : s.isRunning = false)
    (hev : ev.isStart = false) :
    (step s ev).isRunning = false ∧ (step s ev).produced = s.produced ∧
      (step s ev).tickQueue = s.tickQueue ∧
      broadcastTicks (step s ev).emitted = broadcastTicks s.emitted ∧
      (step s ev).detector = s.detector ∧ (step s ev).generator = s.generator := by
  cases ev with
  | startSimulation d sentAt clock => simp [Event.isStart] at hev
  | stopSimulation =>
    have hs : step s Event.stopSimulation
        = { s with emitted := s.emitted ++ [Broadcast.status false] } := by
      simp only [step, onStopSimulation, stopGenerator_stopped s hstop]
    rw [hs]
    exact ⟨hstop, rfl, rfl, by simp [broadcastTicks_append, broadcastTicks], rfl, rfl⟩
  | disconnect => exact ⟨hstop, rfl, rfl, rfl, rfl, rfl⟩
  | timerFires id d sentAt =>
    simp only [step]
    split_ifs
    · have hs := generateLoop_stopped d sentAt
        { s with timers := s.timers.filter (fun t => t != id) } hstop
      rw [hs]
      exact ⟨hstop, rfl, rfl, rfl, rfl, rfl⟩
    · exact ⟨hstop, rfl, rfl, rfl, rfl, rfl⟩
  | immediateFires clock =>
    simp only [step]
    split_ifs
    · have hs := processTickQueue_stopped clock
        { s with immediates := s.immediates - 1 } hstop
      rw [hs]
      exact ⟨hstop, rfl, rfl, rfl, rfl, rfl⟩
    · exact ⟨hstop, rfl, rfl, rfl, rfl, rfl⟩

theorem run_stopped (events : List Event) (s : ServerState) (hstop : s.isRunning = false)
    (hev : ∀ ev ∈ events, ev.isStart = false) :
    (run s events).isRunning = false ∧ (run s events).produced = s.produced ∧
      (run s events).tickQueue = s.tickQueue ∧
      broadcastTicks (run s events).emitted = broadcastTicks s.emitted ∧
      (run s events).detector = s.detector ∧ (run s events).generator = s.generator := by
  induction events generalizing s with
  | nil => exact ⟨hstop, rfl, rfl, rfl, rfl, rfl⟩
  | cons ev rest ih =>
    obtain ⟨h1, h2, h3, h4, h5, h6⟩ :=
      step_stopped s ev hstop (hev ev (List.mem_cons_self _ _))
    obtain ⟨k1, k2, k3, k4, k5, k6⟩ :=
      ih (step s ev) h1 (fun e he => hev e (List.mem_cons_of_mem _ he))
    exact ⟨k1, k2.trans h2, k3.trans h3, k4.trans h4, k5.trans h5, k6.trans h6⟩

theorem statusFlags_startGenerator (d : Draws) (sentAt : Nat) (clock : Nat → Nat)
    (s : ServerState) :
    statusFlags (startGenerator d sentAt clock s).emitted = statusFlags s.emitted := by
  cases hr : s.isRunning with
  | true => rw [startGenerator_running d sentAt clock s hr]
  | false =>
    simp only [startGenerator, hr, Bool.false_eq_true, if_false]
    rw [processTickQueue_running clock _ (by rw [generateLoop_isRunning])]
    simp only [statusFlags_append, statusFlags_detectEach, List.append_nil]
    simp [generateLoop]

/-- What `generateNewTick` returns for `sampleDraws` when `INSTRUMENTS[2]` is at 3300. -/
theorem generateNewTick_sample (g : GeneratorState) (h : g.currentPrices 2 = 3300) :
    generateNewTick sampleDraws g =
      ({ instrument := "NSE:TCS", price := 3300 },
       { currentPrices := Function.update g.currentPrices 2 3300 }) := by
  have hi : pickIndex sampleDraws.pick = 2 := by
    apply Fin.ext
    simp only [pickIndex, sampleDraws]
    norm_num
    rfl
  have hf : randomFactor sampleDraws = 0 := by
    simp only [randomFactor, sampleDraws]
    norm_num
  have hp : toFixed2 (max (1 / 100) (3300 * (1 + 0))) = 3300 := by
    have hm : max (1 / 100 : ℚ) (3300 * (1 + 0)) = 3300 := by norm_num
    rw [hm]
    simp only [toFixed2]
    have hfl : ⌊(3300 : ℚ) * 100 + 1 / 2⌋ = 330000 := by
      rw [Int.floor_eq_iff]
      constructor <;> norm_num
    rw [hfl]
    norm_num
  simp only [generateNewTick, hi, hf, h, hp]
  rfl

theorem detectEach_length (clock : Nat → Nat) (ticks : List FullTick) (i : Nat)
    (det : DetectorState) : (detectEach clock i det ticks).1.length = ticks.length := by
  induction ticks generalizing i det with
  | nil => rfl
  | cons t rest ih => simp [detectEach, ih]

/-! ### Claims about the server pipeline -/

theorem feed_length (calls : List (Nat × PriceTick)) (s : DetectorState) :
    (feed s calls).1.length = calls.length := by
  induction calls generalizing s with
  | nil => rfl
  | cons c rest ih =>
    obtain ⟨now, tick⟩ := c
    simp [feed, ih]

theorem detectorCalls_length (clock : Nat → Nat) (ticks : List FullTick) (i : Nat) :
    (detectorCalls clock i ticks).length = ticks.length := by
  induction ticks generalizing i with
  | nil => rfl
  | cons t rest ih => simp [detectorCalls, ih]

theorem detectorCalls_ticks (clock : Nat → Nat) (ticks : List FullTick) (i : Nat) :
    (detectorCalls clock i ticks).map Prod.snd
      = ticks.map (fun tick => { instrument := tick.instrument, price := tick.price }) := by
  induction ticks generalizing i with
  | nil => rfl
  | cons t rest ih => simp [detectorCalls, ih]

/-- The messages and the detector state of `detectEach` are those obtained by feeding the
ticks to the detector one after another. -/
theorem detectEach_eq_feed (clock : Nat → Nat) (ticks : List FullTick) (i : Nat)
    (det : DetectorState) :
    detectEach clock i det ticks =
      (List.zipWith priceUpdateFor ticks (feed det (detectorCalls clock i ticks)).1,
       (feed det (detectorCalls clock i ticks)).2) := by
  induction ticks generalizing i det with
  | nil => rfl
  | cons t rest ih =>
    simp only [detectEach, detectorCalls, feed, ih, List.zipWith_cons_cons]
    cases (detectAndLog (clock i) det { instrument := t.instrument, price := t.price }).1 <;>
      rfl

/-- C6: for every queue content, one turn of `processTickQueue` while Running removes
exactly the first `min(10, |q|)` ticks and leaves the rest of the queue unchanged; it
passes the removed ticks (instrument and price) to the detector in queue order, so the
results and the detector state are those of feeding them to `detectAndLog` one after
another; it emits exactly one `priceUpdate` per removed tick in that order, carrying the
full tick and the spikes `[event]` when the detector returned an event and `[]` otherwise.
Over any run of the server the broadcast ticks are a prefix of the produced ticks, the
remainder being the queue. -/
theorem processTickQueue_drains_in_order :
    (∀ (clock : Nat → Nat) (s : ServerState), s.isRunning = true →
      (processTickQueue clock s).tickQueue = s.tickQueue.drop (min 10 s.tickQueue.length) ∧
      (processTickQueue clock s).emitted = s.emitted ++
        List.zipWith
          (fun tick result =>
            match result with
            | some event => Broadcast.priceUpdate tick [event]
            | none => Broadcast.priceUpdate tick [])
          (s.tickQueue.take (min 10 s.tickQueue.length))
          (feed s.detector
            (detectorCalls clock 0 (s.tickQueue.take (min 10 s.tickQueue.length)))).1 ∧
      (processTickQueue clock s).detector =
        (feed s.detector
          (detectorCalls clock 0 (s.tickQueue.take (min 10 s.tickQueue.length)))).2 ∧
      (detectorCalls clock 0 (s.tickQueue.take (min 10 s.tickQueue.length))).map Prod.snd
        = (s.tickQueue.take (min 10 s.tickQueue.length)).map
            (fun tick => { instrument := tick.instrument, price := tick.price }) ∧
      (feed s.detector
          (detectorCalls clock 0 (s.tickQueue.take (min 10 s.tickQueue.length)))).1.length
        = min 10 s.tickQueue.length ∧
      (processTickQueue clock s).emitted.length = s.emitted.length + min 10 s.tickQueue.length ∧
      broadcastTicks (processTickQueue clock s).emitted
        = broadcastTicks s.emitted ++ s.tickQueue.take (min 10 s.tickQueue.length) ∧
      (processTickQueue clock s).produced = s.produced) ∧
    (∀ events : List Event,
      (run ServerState.initial events).produced =
        broadcastTicks (run ServerState.initial events).emitted ++
          (run ServerState.initial events).tickQueue ∧
      broadcastTicks (run ServerState.initial events).emitted <+:
        (run ServerState.initial events).produced) := by
  constructor
  · intro clock s hrun
    have hlen : (s.tickQueue.take (min 10 s.tickQueue.length)).length
        = min 10 s.tickQueue.length := by
      rw [List.length_take]
      omega
    have hemit : (processTickQueue clock s).emitted = s.emitted ++
        (detectEach clock 0 s.detector (s.tickQueue.take (min 10 s.tickQueue.length))).1 := by
      rw [processTickQueue_running clock s hrun]
    have hdet : (processTickQueue clock s).detector =
        (detectEach clock 0 s.detector (s.tickQueue.take (min 10 s.tickQueue.length))).2 := by
      rw [processTickQueue_running clock s hrun]
    have hq : (processTickQueue clock s).tickQueue
        = s.tickQueue.drop (min 10 s.tickQueue.length) := by
      rw [processTickQueue_running clock s hrun]
    have hp : (processTickQueue clock s).produced = s.produced := by
      rw [processTickQueue_running clock s hrun]
    refine ⟨hq, ?_, ?_, detectorCalls_ticks _ _ _, ?_, ?_, ?_, hp⟩
    · rw [hemit, detectEach_eq_feed]
      rfl
    · rw [hdet, detectEach_eq_feed]
    · rw [feed_length, detectorCalls_length, hlen]
    · rw [hemit, List.length_append, detectEach_length, hlen]
    · rw [hemit, broadcastTicks_append, broadcastTicks_detectEach]
  · intro events
    have h := run_order events ServerState.initial rfl
    exact ⟨h, ⟨_, h.symm⟩⟩

/-- C6 on a Running state with twelve queued ticks: the turn leaves the last two and
broadcasts the first ten in order. -/
theorem processTickQueue_drains_in_order_witness :
    sampleRunning.isRunning = true ∧
      (processTickQueue (fun _ => 0) sampleRunning).tickQueue =
        [{ instrument := "NSE:ACC", price := 1800, time_sent := 10 },
         { instrument := "NSE:ACC", price := 1800, time_sent := 11 }] ∧
      broadcastTicks (processTickQueue (fun _ => 0) sampleRunning).emitted =
        (List.range 10).map
          (fun n => { instrument := "NSE:ACC", price := 1800, time_sent := n }) := by
  have h := processTickQueue_drains_in_order.1 (fun _ => 0) sampleRunning rfl
  refine ⟨rfl, ?_, ?_⟩
  · rw [h.1]
    rfl
  · rw [h.2.2.2.2.2.2.1]
    rfl

/-- C7: while Stopped, a `generateLoop` callback and a `processTickQueue` turn change
nothing (no tick enqueued or removed, no detector call, no broadcast, no further turn
scheduled); and after `stopGenerator`, whatever runs before the next `startSimulation`
enqueues no tick and broadcasts no tick. -/
theorem stopped_pipeline_is_inert :
    (∀ (d : Draws) (sentAt : Nat) (s : ServerState), s.isRunning = false →
      generateLoop d sentAt s = s) ∧
    (∀ (clock : Nat → Nat) (s : ServerState), s.isRunning = false →
      processTickQueue clock s = s) ∧
    (∀ (s : ServerState) (events : List Event), (∀ ev ∈ events, ev.isStart = false) →
      (run (stopGenerator s) events).isRunning = false ∧
      (run (stopGenerator s) events).produced = s.produced ∧
      broadcastTicks (run (stopGenerator s) events).emitted = broadcastTicks s.emitted) := by
  refine ⟨generateLoop_stopped, processTickQueue_stopped, ?_⟩
  intro s events hev
  obtain ⟨h1, h2, _, h4, _, _⟩ := run_stopped events (stopGenerator s) (stopGenerator_isRunning s) hev
  obtain ⟨_, he, hp, _, _, _⟩ := stopGenerator_keeps s
  exact ⟨h1, h2.trans hp, by rw [h4, he]⟩

/-- C7 on the state reached by stopping `sampleRunning`: a timer callback, a consumer
turn, a second stop and a disconnect enqueue and broadcast nothing. -/
theorem stopped_pipeline_is_inert_witness :
    generateLoop sampleDraws 5 (stopGenerator sampleRunning) = stopGenerator sampleRunning ∧
      processTickQueue (fun _ => 0) (stopGenerator sampleRunning) = stopGenerator sampleRunning ∧
      (run (stopGenerator sampleRunning)
          [Event.timerFires 0 sampleDraws 5, Event.immediateFires (fun _ => 0),
           Event.stopSimulation, Event.disconnect]).produced = sampleRunning.produced ∧
      broadcastTicks (run (stopGenerator sampleRunning)
          [Event.timerFires 0 sampleDraws 5, Event.immediateFires (fun _ => 0),
           Event.stopSimulation, Event.disconnect]).emitted = [] :=
  ⟨stopped_pipeline_is_inert.1 sampleDraws 5 (stopGenerator sampleRunning)
      (stopGenerator_isRunning sampleRunning),
   stopped_pipeline_is_inert.2.1 (fun _ => 0) (stopGenerator sampleRunning)
      (stopGenerator_isRunning sampleRunning),
   (stopped_pipeline_is_inert.2.2 sampleRunning
      [Event.timerFires 0 sampleDraws 5, Event.immediateFires (fun _ => 0),
       Event.stopSimulation, Event.disconnect]
      (by intro ev hev; simp at hev; rcases hev with h | h | h | h <;> rw [h] <;> rfl)).2.1,
   (stopped_pipeline_is_inert.2.2 sampleRunning
      [Event.timerFires 0 sampleDraws 5, Event.immediateFires (fun _ => 0),
       Event.stopSimulation, Event.disconnect]
      (by intro ev hev; simp at hev; rcases hev with h | h | h | h <;> rw [h] <;> rfl)).2.2⟩

/-- C8: `startGenerator` while Running and `stopGenerator` while Stopped return the state
unchanged (run state, pending timer, queue, scheduled callbacks), so start followed by
start equals one start and stop followed by stop equals one stop. -/
theorem start_stop_idempotent :
    (∀ (d : Draws) (sentAt : Nat) (clock : Nat → Nat) (s : ServerState),
      s.isRunning = true → startGenerator d sentAt clock s = s) ∧
    (∀ s : ServerState, s.isRunning = false → stopGenerator s = s) ∧
    (∀ (d d2 : Draws) (sentAt sentAt2 : Nat) (clock clock2 : Nat → Nat) (s : ServerState),
      startGenerator d2 sentAt2 clock2 (startGenerator d sentAt clock s)
        = startGenerator d sentAt clock s) ∧
    (∀ s : ServerState, stopGenerator (stopGenerator s) = stopGenerator s) :=
  ⟨startGenerator_running, stopGenerator_stopped,
   fun d d2 sentAt sentAt2 clock clock2 s =>
     startGenerator_running d2 sentAt2 clock2 _ (startGenerator_isRunning d sentAt clock s),
   fun s => stopGenerator_stopped _ (stopGenerator_isRunning s)⟩

/-- C8 on a Running state and on the freshly started server, which is Stopped. -/
theorem start_stop_idempotent_witness :
    startGenerator sampleDraws 3 (fun _ => 0) sampleRunning = sampleRunning ∧
      stopGenerator ServerState.initial = ServerState.initial :=
  ⟨start_stop_idempotent.1 sampleDraws 3 (fun _ => 0) sampleRunning rfl,
   start_stop_idempotent.2.1 ServerState.initial rfl⟩

theorem statusFlags_onStartSimulation (d : Draws) (sentAt : Nat) (clock : Nat → Nat)
    (s : ServerState) :
    statusFlags (onStartSimulation d sentAt clock s).emitted = statusFlags s.emitted ++ [true] := by
  simp only [onStartSimulation, statusFlags_append, statusFlags_startGenerator]
  rfl

theorem statusFlags_onStopSimulation (s : ServerState) :
    statusFlags (onStopSimulation s).emitted = statusFlags s.emitted ++ [false] := by
  simp only [onStopSimulation, statusFlags_append, (stopGenerator_keeps s).2.1]
  rfl

/-- C9 as stated fails: on the freshly started server two `startSimulation` messages in a
row produce two `status{running:true}` broadcasts, and a `stopSimulation` message while
Stopped produces a `status{running:false}` broadcast. -/
theorem status_broadcast_repeats :
    statusFlags (run ServerState.initial
        [Event.startSimulation sampleDraws 0 (fun _ => 0),
         Event.startSimulation sampleDraws 1 (fun _ => 1)]).emitted = [true, true] ∧
      statusFlags (run ServerState.initial [Event.stopSimulation]).emitted = [false] := by
  constructor
  · show statusFlags (onStartSimulation sampleDraws 1 (fun _ => 1)
      (onStartSimulation sampleDraws 0 (fun _ => 0) ServerState.initial)).emitted = [true, true]
    rw [statusFlags_onStartSimulation, statusFlags_onStartSimulation]
    rfl
  · show statusFlags (onStopSimulation ServerState.initial).emitted = [false]
    rw [statusFlags_onStopSimulation]
    rfl

/-- C9, amended: every `startSimulation` message yields one `status{running:true}`
broadcast and every `stopSimulation` message one `status{running:false}` broadcast,
whether or not the run state changes. Two `startSimulation` messages in a row yield two
`status{running:true}` broadcasts, the second message changing nothing else; a
`stopSimulation` message while Stopped yields one `status{running:false}` broadcast and
changes nothing else. -/
theorem status_broadcast_per_command :
    (∀ (d : Draws) (sentAt : Nat) (clock : Nat → Nat) (s : ServerState),
      (step s (Event.startSimulation d sentAt clock)).emitted
        = (startGenerator d sentAt clock s).emitted ++ [Broadcast.status true] ∧
      statusFlags (startGenerator d sentAt clock s).emitted = statusFlags s.emitted ∧
      statusFlags (step s (Event.startSimulation d sentAt clock)).emitted
        = statusFlags s.emitted ++ [true]) ∧
    (∀ s : ServerState,
      (step s Event.stopSimulation).emitted = s.emitted ++ [Broadcast.status false] ∧
      statusFlags (step s Event.stopSimulation).emitted = statusFlags s.emitted ++ [false]) ∧
    (∀ (d d2 : Draws) (sentAt sentAt2 : Nat) (clock clock2 : Nat → Nat) (s : ServerState),
      statusFlags (run s [Event.startSimulation d sentAt clock,
          Event.startSimulation d2 sentAt2 clock2]).emitted
        = statusFlags s.emitted ++ [true, true]) ∧
    (∀ (d : Draws) (sentAt : Nat) (clock : Nat → Nat) (s : ServerState),
      s.isRunning = true →
      onStartSimulation d sentAt clock s
        = { s with emitted := s.emitted ++ [Broadcast.status true] }) ∧
    (∀ s : ServerState, s.isRunning = false →
      onStopSimulation s = { s with emitted := s.emitted ++ [Broadcast.status false] }) := by
  refine ⟨?_, ?_, ?_, ?_, ?_⟩
  · intro d sentAt clock s
    exact ⟨rfl, statusFlags_startGenerator d sentAt clock s,
      statusFlags_onStartSimulation d sentAt clock s⟩
  · intro s
    refine ⟨?_, statusFlags_onStopSimulation s⟩
    show (stopGenerator s).emitted ++ [Broadcast.status false]
      = s.emitted ++ [Broadcast.status false]
    rw [(stopGenerator_keeps s).2.1]
  · intro d d2 sentAt sentAt2 clock clock2 s
    show statusFlags (onStartSimulation d2 sentAt2 clock2
      (onStartSimulation d sentAt clock s)).emitted = statusFlags s.emitted ++ [true, true]
    rw [statusFlags_onStartSimulation, statusFlags_onStartSimulation, List.append_assoc]
    rfl
  · intro d sentAt clock s hrun
    simp only [onStartSimulation, startGenerator_running d sentAt clock s hrun]
  · intro s hstop
    simp only [onStopSimulation, stopGenerator_stopped s hstop]

/-- C9, amended, on a Running state and on the freshly started server. -/
theorem status_broadcast_per_command_witness :
    onStartSimulation sampleDraws 3 (fun _ => 0) sampleRunning
        = { sampleRunning with emitted := sampleRunning.emitted ++ [Broadcast.status true] } ∧
      onStopSimulation ServerState.initial
        = { ServerState.initial with
            emitted := ServerState.initial.emitted ++ [Broadcast.status false] } ∧
      (step sampleRunning Event.stopSimulation).emitted
        = sampleRunning.emitted ++ [Broadcast.status false] :=
  ⟨status_broadcast_per_command.2.2.2.1 sampleDraws 3 (fun _ => 0) sampleRunning rfl,
   status_broadcast_per_command.2.2.2.2 ServerState.initial rfl,
   (status_broadcast_per_command.2.1 sampleRunning).1⟩

/-- C10 as stated fails: start the server, let the generator timer fire once more, stop,
and let the pending consumer turn run. The second tick stays in the queue, only the first
was broadcast, and no consumer turn remains scheduled. -/
theorem queued_tick_not_drained_after_stop :
    (run ServerState.initial
        [Event.startSimulation sampleDraws 0 (fun _ => 0),
         Event.timerFires 0 sampleDraws 1,
         Event.stopSimulation,
         Event.immediateFires (fun _ => 2),
         Event.immediateFires (fun _ => 3)]).tickQueue
      = [{ instrument := "NSE:TCS", price := 3300, time_sent := 1 }] ∧
    broadcastTicks (run ServerState.initial
        [Event.startSimulation sampleDraws 0 (fun _ => 0),
         Event.timerFires 0 sampleDraws 1,
         Event.stopSimulation,
         Event.immediateFires (fun _ => 2),
         Event.immediateFires (fun _ => 3)]).emitted
      = [{ instrument := "NSE:TCS", price := 3300, time_sent := 0 }] ∧
    (run ServerState.initial
        [Event.startSimulation sampleDraws 0 (fun _ => 0),
         Event.timerFires 0 sampleDraws 1,
         Event.stopSimulation,
         Event.immediateFires (fun _ => 2),
         Event.immediateFires (fun _ => 3)]).immediates = 0 := by
  have hg0 : GeneratorState.initial.currentPrices 2 = 3300 := rfl
  have hg1 : ({ currentPrices := Function.update GeneratorState.initial.currentPrices 2 3300 }
      : GeneratorState).currentPrices 2 = 3300 := by
    simp
  simp [run, step, onStartSimulation, onStopSimulation, startGenerator, stopGenerator,
    generateLoop, processTickQueue, drainBatch, ServerState.initial,
    generateNewTick_sample _ hg0, generateNewTick_sample _ hg1, broadcastTicks, spikesOf,
    stampTick]

/-- C10, amended: after stop, the ticks already in the queue are not drained while the
pipeline stays Stopped: whatever runs before the next `startSimulation` leaves the queue,
the detector and the broadcast ticks unchanged. The leftover ticks are drained by the next
start, whose consumer turn takes the first `min(10, n + 1)` ticks of the leftovers followed
by the freshly generated tick, runs them through the detector and broadcasts them in
order. -/
theorem queued_ticks_wait_for_next_start :
    (∀ (s : ServerState) (events : List Event), (∀ ev ∈ events, ev.isStart = false) →
      (run (stopGenerator s) events).tickQueue = s.tickQueue ∧
      (run (stopGenerator s) events).detector = s.detector ∧
      broadcastTicks (run (stopGenerator s) events).emitted = broadcastTicks s.emitted) ∧
    (∀ (d : Draws) (sentAt : Nat) (clock : Nat → Nat) (s : ServerState),
      s.isRunning = false →
      (startGenerator d sentAt clock s).tickQueue =
        (s.tickQueue ++
          [stampTick (generateNewTick d s.generator).1 sentAt]).drop (min 10 (s.tickQueue.length + 1)) ∧
      (startGenerator d sentAt clock s).emitted = s.emitted ++
        (detectEach clock 0 s.detector
          ((s.tickQueue ++
            [stampTick (generateNewTick d s.generator).1 sentAt]).take (min 10 (s.tickQueue.length + 1)))).1) := by
  constructor
  · intro s events hev
    obtain ⟨_, _, h3, h4, h5, _⟩ :=
      run_stopped events (stopGenerator s) (stopGenerator_isRunning s) hev
    obtain ⟨hq, he, _, hd, _, _⟩ := stopGenerator_keeps s
    exact ⟨h3.trans hq, h5.trans hd, by rw [h4, he]⟩
  · intro d sentAt clock s hstop
    simp only [startGenerator, hstop, Bool.false_eq_true, if_false]
    rw [processTickQueue_running clock _ (by rw [generateLoop_isRunning])]
    simp [generateLoop]

/-- C10, amended, on the state reached by stopping `sampleRunning`: a consumer turn
leaves the twelve ticks queued; and starting the freshly loaded server drains the one tick
it generates. -/
theorem queued_ticks_wait_for_next_start_witness :
    (run (stopGenerator sampleRunning) [Event.immediateFires (fun _ => 0)]).tickQueue
        = sampleRunning.tickQueue ∧
      (startGenerator sampleDraws 0 (fun _ => 0) ServerState.initial).tickQueue = [] :=
  ⟨(queued_ticks_wait_for_next_start.1 sampleRunning [Event.immediateFires (fun _ => 0)]
      (by intro ev hev; simp at hev; rw [hev]; rfl)).1,
   (queued_ticks_wait_for_next_start.2 sampleDraws 0 (fun _ => 0) ServerState.initial rfl).1⟩

/-! ## Facts about `generateNewTick` -/

theorem toFixed2_eq_intCast_div (x : ℚ) : ∃ n : ℤ, toFixed2 x = n / 100 :=
  ⟨⌊x * 100 + 1 / 2⌋, rfl⟩

theorem toFixed2_mul_100 (x : ℚ) : toFixed2 x * 100 = (⌊x * 100 + 1 / 2⌋ : ℤ) := by
  unfold toFixed2
  field_simp

/-- The rounding `toFixed2` moves a number by at most half a cent. -/
theorem toFixed2_near (x : ℚ) : |toFixed2 x - x| ≤ 1 / 200 := by
  have h1 := Int.floor_le (x * 100 + 1 / 2)
  have h2 := Int.lt_floor_add_one (x * 100 + 1 / 2)
  unfold toFixed2
  rw [abs_le]
  constructor <;> linarith

theorem toFixed2_clamped_ge (x : ℚ) : 1 / 100 ≤ toFixed2 (max (1 / 100) x) := by
  have hm : (1 / 100 : ℚ) ≤ max (1 / 100) x := le_max_left _ _
  have hfl : (1 : ℤ) ≤ ⌊max (1 / 100) x * 100 + 1 / 2⌋ := by
    rw [Int.le_floor]
    push_cast
    linarith
  have hq : (1 : ℚ) ≤ (⌊max (1 / 100) x * 100 + 1 / 2⌋ : ℤ) := by exact_mod_cast hfl
  unfold toFixed2
  linarith

theorem instrumentAt_mem (i : Fin 4) : instrumentAt i ∈ INSTRUMENTS :=
  List.get_mem _ _ _

theorem randomFactor_normal (d : Draws) (h : ¬ d.gate.val < 2 / 10000) :
    randomFactor d = d.base.val * (1 / 100) - 1 / 100 / 2 := by
  simp only [randomFactor, h, if_false]

theorem randomFactor_forced (d : Draws) (h : d.gate.val < 2 / 10000) :
    randomFactor d =
      if d.sign.val > 1 / 2 then d.size.val * (5 / 100) + 10 / 100
      else -(d.size.val * (5 / 100) + 10 / 100) := by
  simp only [randomFactor, h, if_true]

theorem generateNewTick_price (d : Draws) (g : GeneratorState) :
    (generateNewTick d g).1.price =
      toFixed2 (max (1 / 100) (g.currentPrices (pickIndex d.pick) * (1 + randomFactor d))) :=
  rfl

/-! ### Claims about the generator -/

/-- C11: for every generator state (in particular one with positive stored prices) and
every outcome of the random draws, the tick returned by `generateNewTick` has a price of
at least 0.01, hence positive, with exactly two decimal digits (`price * 100` is an
integer), and its instrument is one of the four entries of `INSTRUMENTS`. -/
theorem generateNewTick_valid_tick (d : Draws) (g : GeneratorState) :
    0 < (generateNewTick d g).1.price ∧ 1 / 100 ≤ (generateNewTick d g).1.price ∧
      (∃ n : ℤ, (generateNewTick d g).1.price * 100 = n) ∧
      (generateNewTick d g).1.instrument ∈ INSTRUMENTS ∧
      INSTRUMENTS = ["NSE:ACC", "NSE:SBIN", "NSE:TCS", "NSE:INFY"] := by
  have hge := toFixed2_clamped_ge (g.currentPrices (pickIndex d.pick) * (1 + randomFactor d))
  rw [generateNewTick_price]
  refine ⟨by linarith, hge, ⟨_, toFixed2_mul_100 _⟩, instrumentAt_mem _, rfl⟩

/-- C12: with the random draws as inputs in `[0, 1)`, `generateNewTick` returns, for the
chosen instrument, the price `max(0.01, oldPrice * (1 + factor))` rounded to two decimals
(a multiple of 0.01 within half a cent of it). The factor lies in `[-0.005, 0.005]` on the
normal branch; on the forced-spike branch, taken when the draw is below `0.0002 = 1/5000`,
its magnitude lies in `[0.10, 0.15]` and its sign follows the sign draw. The generator
stores the returned price for that instrument and leaves the other prices unchanged. -/
theorem generateNewTick_price_and_state (d : Draws) (g : GeneratorState) :
    (generateNewTick d g).1.instrument = instrumentAt (pickIndex d.pick) ∧
    (generateNewTick d g).1.price =
      toFixed2 (max (1 / 100) (g.currentPrices (pickIndex d.pick) * (1 + randomFactor d))) ∧
    (∃ n : ℤ, (generateNewTick d g).1.price = n / 100) ∧
    |(generateNewTick d g).1.price -
        max (1 / 100) (g.currentPrices (pickIndex d.pick) * (1 + randomFactor d))| ≤ 1 / 200 ∧
    (¬ d.gate.val < 1 / 5000 → -(5 / 1000) ≤ randomFactor d ∧ randomFactor d ≤ 5 / 1000) ∧
    (d.gate.val < 1 / 5000 →
      10 / 100 ≤ |randomFactor d| ∧ |randomFactor d| ≤ 15 / 100 ∧
      (d.sign.val > 1 / 2 → 0 < randomFactor d) ∧
      (¬ d.sign.val > 1 / 2 → randomFactor d < 0)) ∧
    (generateNewTick d g).2.currentPrices (pickIndex d.pick) = (generateNewTick d g).1.price ∧
    (∀ j, j ≠ pickIndex d.pick →
      (generateNewTick d g).2.currentPrices j = g.currentPrices j) := by
  have hgate : (1 / 5000 : ℚ) = 2 / 10000 := by norm_num
  have hb0 := d.base.nonneg
  have hb1 := d.base.lt_one
  have hs0 := d.size.nonneg
  have hs1 := d.size.lt_one
  refine ⟨rfl, rfl, ?_, ?_, ?_, ?_, ?_, ?_⟩
  · rw [generateNewTick_price]
    exact toFixed2_eq_intCast_div _
  · rw [generateNewTick_price]
    exact toFixed2_near _
  · intro h
    rw [hgate] at h
    rw [randomFactor_normal d h]
    constructor <;> linarith
  · intro h
    rw [hgate] at h
    rw [randomFactor_forced d h]
    by_cases hsign : d.sign.val > 1 / 2
    · rw [if_pos hsign, abs_of_nonneg (by linarith)]
      refine ⟨by linarith, by linarith, fun _ => by linarith, fun hn => absurd hsign hn⟩
    · rw [if_neg hsign, abs_neg, abs_of_nonneg (by linarith)]
      refine ⟨by linarith, by linarith, fun hp => absurd hp hsign, fun _ => by linarith⟩
  · simp [generateNewTick]
  · intro j hj
    simp [generateNewTick, Function.update_noteq hj]

/-- C12 on the normal branch (`sampleDraws`) and on the forced-spike branch
(`forcedUpDraws`). -/
theorem generateNewTick_price_and_state_witness :
    (-(5 / 1000) ≤ randomFactor sampleDraws ∧ randomFactor sampleDraws ≤ 5 / 1000) ∧
      (10 / 100 ≤ |randomFactor forcedUpDraws| ∧ |randomFactor forcedUpDraws| ≤ 15 / 100 ∧
        (forcedUpDraws.sign.val > 1 / 2 → 0 < randomFactor forcedUpDraws) ∧
        (¬ forcedUpDraws.sign.val > 1 / 2 → randomFactor forcedUpDraws < 0)) ∧
      (∀ j, j ≠ pickIndex sampleDraws.pick →
        (generateNewTick sampleDraws GeneratorState.initial).2.currentPrices j
          = GeneratorState.initial.currentPrices j) :=
  ⟨(generateNewTick_price_and_state sampleDraws GeneratorState.initial).2.2.2.2.1
      (by norm_num [sampleDraws]),
   (generateNewTick_price_and_state forcedUpDraws GeneratorState.initial).2.2.2.2.2.1
      (by norm_num [forcedUpDraws]),
   fun j hj =>
    (generateNewTick_price_and_state sampleDraws GeneratorState.initial).2.2.2.2.2.2.2 j hj⟩

/-- C18 fails on the code: with NSE:ACC at 1800.01 the forced-spike branch with factor
`0.10 + 0.05 / 32768` returns 1980.01 after rounding, a move of 180.00, which is less than
10% of 1800.01; the detector whose baseline is 1800.01 returns null for that tick. -/
theorem forced_spike_below_threshold_after_rounding :
    forcedUpDraws.gate.val < 2 / 10000 ∧
      randomFactor forcedUpDraws = 10 / 100 + 5 / 100 / 32768 ∧
      (generateNewTick forcedUpDraws accAt180001).1
        = { instrument := "NSE:ACC", price := 198001 / 100 } ∧
      |(198001 / 100 : ℚ) - 180001 / 100| < 10 / 100 * (180001 / 100) ∧
      (detectAndLog 0 (singleEntry "NSE:ACC" (180001 / 100))
        (generateNewTick forcedUpDraws accAt180001).1).1 = none := by
  have hf : randomFactor forcedUpDraws = 10 / 100 + 5 / 100 / 32768 := by
    simp only [randomFactor, forcedUpDraws]
    norm_num
  have hi : pickIndex forcedUpDraws.pick = 0 := by
    apply Fin.ext
    simp only [pickIndex, forcedUpDraws]
    norm_num
  have hp : (generateNewTick forcedUpDraws accAt180001).1.price = 198001 / 100 := by
    rw [generateNewTick_price, hi, hf]
    have hold : accAt180001.currentPrices 0 = 180001 / 100 := rfl
    rw [hold]
    have hm : max (1 / 100 : ℚ) (180001 / 100 * (1 + (10 / 100 + 5 / 100 / 32768)))
        = 180001 / 100 * (1 + (10 / 100 + 5 / 100 / 32768)) := by
      apply max_eq_right
      norm_num
    rw [hm]
    simp only [toFixed2]
    have hfl : ⌊(180001 / 100 * (1 + (10 / 100 + 5 / 100 / 32768)) : ℚ) * 100 + 1 / 2⌋
        = 198001 := by
      rw [Int.floor_eq_iff]
      constructor <;> norm_num
    rw [hfl]
    norm_num
  have ht : (generateNewTick forcedUpDraws accAt180001).1
      = { instrument := "NSE:ACC", price := 198001 / 100 } := by
    have hinst : (generateNewTick forcedUpDraws accAt180001).1.instrument = "NSE:ACC" := by
      show instrumentAt (pickIndex forcedUpDraws.pick) = "NSE:ACC"
      rw [hi]
      rfl
    cases hgen : (generateNewTick forcedUpDraws accAt180001).1 with
    | mk instrument price =>
      rw [hgen] at hp hinst
      simp only at hp hinst
      rw [hp, hinst]
  refine ⟨by norm_num [forcedUpDraws], hf, ht, ?_, ?_⟩
  · rw [abs_of_nonneg (by norm_num)]
    norm_num
  · rw [ht, detectAndLog_event_of_stored 0 (singleEntry "NSE:ACC" (180001 / 100)) _
      (180001 / 100) (by simp [singleEntry, setKey]) (by norm_num)]
    norm_num [SPIKE_THRESHOLD, abs_of_nonneg]

/-! ### Further claims about the detector and the server -/

/-- C19: `detectAndLog` never divides by a zero baseline. If the stored price of the
tick's instrument is absent or 0, the call takes the initialization branch: it stores the
new price and returns null. Hence every returned event was computed from a non-zero
`oldPrice`, and a tick that follows a stored price of 0 is never reported as a spike,
whatever its price. -/
theorem detectAndLog_zero_baseline_initializes :
    (∀ (now : Nat) (s : DetectorState) (tick : PriceTick),
      (s.lastKnownPrices tick.instrument = none ∨ s.lastKnownPrices tick.instrument = some 0) →
      detectAndLog now s tick =
        (none, { s with
          lastKnownPrices := setKey s.lastKnownPrices tick.instrument tick.price })) ∧
    (∀ (now : Nat) (s : DetectorState) (tick : PriceTick) (e : SpikeEvent),
      (detectAndLog now s tick).1 = some e →
      e.oldPrice ≠ 0 ∧ s.lastKnownPrices tick.instrument = some e.oldPrice) ∧
    (∀ (now now2 : Nat) (s : DetectorState) (instrument : String) (price : ℚ),
      (detectAndLog now2
        (detectAndLog now s { instrument := instrument, price := 0 }).2
        { instrument := instrument, price := price }).1 = none) := by
  refine ⟨?_, ?_, ?_⟩
  · intro now s tick h
    exact Prod.ext (detectAndLog_none_of_falsy now s tick h) (detectAndLog_falsy_state now s tick h)
  · intro now s tick e he
    obtain ⟨oldPrice, hold, hne, _, rfl⟩ := detectAndLog_some_inv now s tick e he
    exact ⟨hne, hold⟩
  · intro now now2 s instrument price
    apply detectAndLog_none_of_falsy
    right
    rw [detectAndLog_table]
    exact setKey_same _ _ _

/-- C19 on a table whose entry for X is 0: a tick at 5000 is not a spike and becomes the
stored price. -/
theorem detectAndLog_zero_baseline_initializes_witness :
    detectAndLog 0 (singleEntry "X" 0) { instrument := "X", price := 5000 } =
      (none, { singleEntry "X" 0 with
        lastKnownPrices := setKey (singleEntry "X" 0).lastKnownPrices "X" 5000 }) :=
  detectAndLog_zero_baseline_initializes.1 0 (singleEntry "X" 0)
    { instrument := "X", price := 5000 } (Or.inr (by simp [singleEntry, setKey]))

/-- C17 as stated fails: start the server, let the client disconnect, and let the pending
generator timer fire. The run state is still Running and a second tick has been
generated after the disconnect. -/
theorem pipeline_runs_after_disconnect :
    (run ServerState.initial
        [Event.startSimulation sampleDraws 0 (fun _ => 0),
         Event.disconnect,
         Event.timerFires 0 sampleDraws 1]).isRunning = true ∧
    (run ServerState.initial
        [Event.startSimulation sampleDraws 0 (fun _ => 0),
         Event.disconnect,
         Event.timerFires 0 sampleDraws 1]).produced
      = [{ instrument := "NSE:TCS", price := 3300, time_sent := 0 },
         { instrument := "NSE:TCS", price := 3300, time_sent := 1 }] := by
  have hg0 : GeneratorState.initial.currentPrices 2 = 3300 := rfl
  have hg1 : ({ currentPrices := Function.update GeneratorState.initial.currentPrices 2 3300 }
      : GeneratorState).currentPrices 2 = 3300 := by
    simp
  simp [run, step, onStartSimulation, onDisconnect, startGenerator,
    generateLoop, processTickQueue, drainBatch, ServerState.initial,
    generateNewTick_sample _ hg0, generateNewTick_sample _ hg1, stampTick]

theorem step_keeps_running (s : ServerState) (ev : Event) (hrun : s.isRunning = true)
    (hev : ev ≠ Event.stopSimulation) : (step s ev).isRunning = true := by
  cases ev with
  | startSimulation d sentAt clock => exact startGenerator_isRunning d sentAt clock s
  | stopSimulation => exact absurd rfl hev
  | disconnect => exact hrun
  | timerFires id d sentAt =>
    simp only [step]
    split_ifs
    · rw [generateLoop_isRunning]
      exact hrun
    · exact hrun
  | immediateFires clock =>
    simp only [step]
    split_ifs
    · rw [processTickQueue_isRunning]
      exact hrun
    · exact hrun

theorem run_keeps_running (events : List Event) (s : ServerState) (hrun : s.isRunning = true)
    (hev : ∀ ev ∈ events, ev ≠ Event.stopSimulation) : (run s events).isRunning = true := by
  induction events generalizing s with
  | nil => exact hrun
  | cons ev rest ih =>
    exact ih (step s ev) (step_keeps_running s ev hrun (hev ev (List.mem_cons_self _ _)))
      (fun e he => hev e (List.mem_cons_of_mem _ he))

/-- C17, amended: when a client disconnects while the pipeline is Running, even the only
connected one, the server state is unchanged: the run state stays Running and the pending
generator timer still produces the next tick. The run state becomes Stopped only when a
`stopSimulation` message is handled: a callback that takes a Running server to Stopped is
the `stopSimulation` handler, a run without that message stays Running, and the
`stopSimulation` handler does stop the pipeline. -/
theorem disconnect_leaves_pipeline_running :
    (∀ s : ServerState, step s Event.disconnect = s) ∧
    (∀ (s : ServerState) (id : Nat) (d : Draws) (sentAt : Nat),
      s.isRunning = true → id ∈ s.timers →
      (step (step s Event.disconnect) (Event.timerFires id d sentAt)).isRunning = true ∧
      (step (step s Event.disconnect) (Event.timerFires id d sentAt)).produced
        = s.produced ++ [stampTick (generateNewTick d s.generator).1 sentAt]) ∧
    (∀ (s : ServerState) (ev : Event),
      s.isRunning = true → (step s ev).isRunning = false → ev = Event.stopSimulation) ∧
    (∀ (s : ServerState) (events : List Event),
      s.isRunning = true → (∀ ev ∈ events, ev ≠ Event.stopSimulation) →
      (run s events).isRunning = true) ∧
    (∀ s : ServerState, (step s Event.stopSimulation).isRunning = false) := by
  refine ⟨fun s => rfl, ?_, ?_, ?_, ?_⟩
  · intro s id d sentAt hrun hid
    have hstep : step s Event.disconnect = s := rfl
    rw [hstep]
    simp [step, hid, generateLoop, hrun]
  · intro s ev hrun hstopped
    by_contra hne
    rw [step_keeps_running s ev hrun hne] at hstopped
    cases hstopped
  · intro s events hrun hev
    exact run_keeps_running events s hrun hev
  · intro s
    exact stopGenerator_isRunning s

/-- C17, amended, on `sampleRunning` with an active generator timer: after a disconnect
the timer still produces a tick, and a run of a disconnect and a consumer turn stays
Running. -/
theorem disconnect_leaves_pipeline_running_witness :
    ((step (step { sampleRunning with timers := [4] } Event.disconnect)
        (Event.timerFires 4 sampleDraws 9)).isRunning = true ∧
      (step (step { sampleRunning with timers := [4] } Event.disconnect)
        (Event.timerFires 4 sampleDraws 9)).produced
        = sampleRunning.produced ++
          [stampTick (generateNewTick sampleDraws sampleRunning.generator).1 9]) ∧
      (run sampleRunning [Event.disconnect, Event.immediateFires (fun _ => 0)]).isRunning
        = true :=
  ⟨disconnect_leaves_pipeline_running.2.1 { sampleRunning with timers := [4] } 4 sampleDraws 9
      rfl (by simp),
   disconnect_leaves_pipeline_running.2.2.2.1 sampleRunning
      [Event.disconnect, Event.immediateFires (fun _ => 0)] rfl
      (by intro ev hev; simp at hev; rcases hev with h | h <;> rw [h] <;> exact Event.noConfusion)⟩

/-! ## Facts about the dashboard calculations -/

theorem foldl_add_eq_sum (l : List ℚ) (a : ℚ) :
    l.foldl (fun sum current => sum + current) a = a + l.sum := by
  induction l generalizing a with
  | nil => simp
  | cons x rest ih => simp [ih, add_assoc]

theorem foldl_sq_dev_eq_sum (l : List ℚ) (mean a : ℚ) :
    l.foldl (fun sum current => sum + (current - mean) ^ 2) a
      = a + (l.map (fun current => (current - mean) ^ 2)).sum := by
  induction l generalizing a with
  | nil => simp
  | cons x rest ih => simp [ih, add_assoc]

/-- The local `variance` is the mean of the squared deviations from the mean, with
divisor `n`. -/
theorem volatilityVariance_eq (prices : List PricePoint) :
    volatilityVariance prices =
      (prices.map (fun d =>
        (d.price - (prices.map (fun d => d.price)).sum / (prices.length : ℚ)) ^ 2)).sum
        / (prices.length : ℚ) := by
  simp only [volatilityVariance, foldl_add_eq_sum, foldl_sq_dev_eq_sum, zero_add,
    List.length_map, List.map_map]
  rfl

theorem volatilityVariance_nonneg (prices : List PricePoint) :
    0 ≤ volatilityVariance prices := by
  rw [volatilityVariance_eq]
  apply div_nonneg
  · apply List.sum_nonneg
    intro x hx
    rw [List.mem_map] at hx
    obtain ⟨d, _, rfl⟩ := hx
    positivity
  · positivity

/-! ### Claims about the dashboard calculations -/

/-- C15: `calculateVolatility` returns 0 for every history with fewer than 2 points, and
for every history with at least 2 points it returns the population standard deviation of
the prices: a non-negative number whose square is the mean of the squared deviations from
the mean, the divisor being `n` and not `n - 1`. -/
theorem calculateVolatility_population_sd :
    (∀ prices : List PricePoint, prices.length < 2 → calculateVolatility prices = 0) ∧
    (∀ prices : List PricePoint, 2 ≤ prices.length →
      0 ≤ calculateVolatility prices ∧
      calculateVolatility prices ^ 2 =
        (prices.map (fun d =>
          ((d.price : ℝ) - (prices.map (fun d => (d.price : ℝ))).sum / (prices.length : ℝ)) ^ 2)).sum
          / (prices.length : ℝ)) := by
  constructor
  · intro prices h
    simp [calculateVolatility, h]
  · intro prices h
    have hlen : ¬ prices.length < 2 := by omega
    have hv : calculateVolatility prices = Real.sqrt ((volatilityVariance prices : ℚ) : ℝ) := by
      simp only [calculateVolatility, hlen, if_false]
    rw [hv]
    refine ⟨Real.sqrt_nonneg _, ?_⟩
    rw [Real.sq_sqrt (by exact_mod_cast volatilityVariance_nonneg prices),
      volatilityVariance_eq]
    push_cast
    simp only [List.map_map, Function.comp_def]
    push_cast
    simp only [List.map_map, Function.comp_def]

/-- C15 on the empty history and on the prices 1 and 3, whose mean is 2 and whose
population variance is 1. -/
theorem calculateVolatility_population_sd_witness :
    calculateVolatility [] = 0 ∧
      0 ≤ calculateVolatility [{ price := 1, timestamp := 0 }, { price := 3, timestamp := 1 }] ∧
      calculateVolatility [{ price := 1, timestamp := 0 }, { price := 3, timestamp := 1 }] ^ 2
        = 1 := by
  have h := calculateVolatility_population_sd.2
    [{ price := 1, timestamp := 0 }, { price := 3, timestamp := 1 }] (by simp)
  refine ⟨calculateVolatility_population_sd.1 [] (by simp), h.1, ?_⟩
  rw [h.2]
  norm_num

/-! ## Facts about the dashboard windows -/

theorem sliceLast_length_le {α : Type} (n : Nat) (l : List α) :
    (sliceLast n l).length ≤ n := by
  simp only [sliceLast, List.length_drop]
  omega

theorem sliceLast_of_length_le {α : Type} (n : Nat) (l : List α) (h : l.length ≤ n) :
    sliceLast n l = l := by
  have h0 : l.length - n = 0 := by omega
  simp [sliceLast, h0]

/-- Trimming before appending does not change the trimmed result. -/
theorem sliceLast_append_singleton {α : Type} (n : Nat) (hn : 1 ≤ n) (l : List α) (x : α) :
    sliceLast n (sliceLast n l ++ [x]) = sliceLast n (l ++ [x]) := by
  by_cases h : l.length ≤ n
  · rw [sliceLast_of_length_le n l h]
  · have hk : l.length - n ≤ l.length := by omega
    simp only [sliceLast, List.length_append, List.length_drop, List.length_singleton]
    have h1 : l.length - (l.length - n) + 1 - n = 1 := by omega
    have h2 : l.length + 1 - n = (l.length - n) + 1 := by omega
    rw [h1, h2]
    have hl : List.drop 1 (List.drop (l.length - n) l ++ [x])
        = List.drop (l.length - n + 1) l ++ [x] := by
      rw [List.drop_append_of_le_length (by rw [List.length_drop]; omega), List.drop_drop]
    have hr : List.drop (l.length - n + 1) (l ++ [x])
        = List.drop (l.length - n + 1) l ++ [x] := by
      rw [List.drop_append_of_le_length (by omega)]
    rw [hl, hr]

/-- Appending to a full window evicts its oldest entry. -/
theorem sliceLast_full {α : Type} (n : Nat) (hn : 1 ≤ n) (l : List α) (x : α)
    (h : l.length = n) : sliceLast n (l ++ [x]) = l.tail ++ [x] := by
  simp only [sliceLast, List.length_append, List.length_singleton]
  have h1 : l.length + 1 - n = 1 := by omega
  rw [h1, List.drop_append_of_le_length (by omega), List.drop_one]

theorem onPriceUpdate_latencyBuffer (u : PriceUpdate) (s : DashboardState) :
    (onPriceUpdate u s).latencyBuffer =
      if u.tick.time_sent ≠ 0 then
        sliceLast 1000 (s.latencyBuffer ++ [(u.timeReceived : ℤ) - (u.tick.time_sent : ℤ)])
      else s.latencyBuffer := by
  by_cases ht : u.tick.time_sent = 0 <;> cases hsp : u.spikes <;>
    simp [onPriceUpdate, ht, hsp, LATENCY_BUFFER_SIZE]

theorem onPriceUpdate_historyOf (u : PriceUpdate) (s : DashboardState) (instrument : String) :
    historyOf (onPriceUpdate u s) instrument =
      if u.tick.instrument = instrument then
        sliceLast 500 (historyOf s instrument ++
          [{ price := u.tick.price, timestamp := u.timeReceived }])
      else historyOf s instrument := by
  by_cases hi : u.tick.instrument = instrument
  · subst hi
    by_cases ht : u.tick.time_sent = 0 <;> cases hsp : u.spikes <;>
      simp [onPriceUpdate, historyOf, ht, hsp, MAX_HISTORY_POINTS]
  · have hi2 : ¬ instrument = u.tick.instrument := fun h => hi h.symm
    by_cases ht : u.tick.time_sent = 0 <;> cases hsp : u.spikes <;>
      simp [onPriceUpdate, historyOf, ht, hsp, hi, hi2]

theorem onPriceUpdate_keeps (u : PriceUpdate) (s : DashboardState) :
    (onPriceUpdate u s).systemTicks = s.systemTicks + 1 ∧
      (onPriceUpdate u s).isRunning = s.isRunning ∧
      (onPriceUpdate u s).startTime = s.startTime ∧
      (onPriceUpdate u s).finalMetrics = s.finalMetrics := by
  by_cases ht : u.tick.time_sent = 0 <;> cases hsp : u.spikes <;>
    simp [onPriceUpdate, ht, hsp]

theorem dashRun_cons (s : DashboardState) (ev : DashEvent) (rest : List DashEvent) :
    dashRun s (ev :: rest) = dashRun (dashStep s ev) rest := rfl

/-- Over a stream of `priceUpdate` messages the latency buffer stays the window of the
samples seen so far. -/
theorem dashRun_latencyBuffer (ups : List PriceUpdate) (s : DashboardState) (seen : List ℤ)
    (h : s.latencyBuffer = sliceLast 1000 seen) :
    (dashRun s (ups.map DashEvent.priceUpdate)).latencyBuffer =
      sliceLast 1000 (seen ++ latencySamples ups) := by
  induction ups generalizing s seen with
  | nil => simpa [dashRun, latencySamples] using h
  | cons u rest ih =>
    rw [List.map_cons, dashRun_cons]
    by_cases hs : u.tick.time_sent ≠ 0
    · have hstep : (dashStep s (DashEvent.priceUpdate u)).latencyBuffer =
          sliceLast 1000 (seen ++ [(u.timeReceived : ℤ) - (u.tick.time_sent : ℤ)]) := by
        show (onPriceUpdate u s).latencyBuffer = _
        rw [onPriceUpdate_latencyBuffer, if_pos hs, h,
          sliceLast_append_singleton 1000 (by norm_num)]
      rw [ih _ _ hstep]
      simp [latencySamples, hs]
    · have hstep : (dashStep s (DashEvent.priceUpdate u)).latencyBuffer =
          sliceLast 1000 seen := by
        show (onPriceUpdate u s).latencyBuffer = _
        rw [onPriceUpdate_latencyBuffer, if_neg hs, h]
      rw [ih _ _ hstep]
      simp [latencySamples, hs]

/-- Over a stream of `priceUpdate` messages each price history stays the window of the
points seen so far for its instrument. -/
theorem dashRun_historyOf (ups : List PriceUpdate) (s : DashboardState) (instrument : String)
    (seen : List PricePoint) (h : historyOf s instrument = sliceLast 500 seen) :
    historyOf (dashRun s (ups.map DashEvent.priceUpdate)) instrument =
      sliceLast 500 (seen ++ historyPoints instrument ups) := by
  induction ups generalizing s seen with
  | nil => simpa [dashRun, historyPoints] using h
  | cons u rest ih =>
    rw [List.map_cons, dashRun_cons]
    by_cases hi : u.tick.instrument = instrument
    · have hstep : historyOf (dashStep s (DashEvent.priceUpdate u)) instrument =
          sliceLast 500 (seen ++ [{ price := u.tick.price, timestamp := u.timeReceived }]) := by
        show historyOf (onPriceUpdate u s) instrument = _
        rw [onPriceUpdate_historyOf, if_pos hi, h,
          sliceLast_append_singleton 500 (by norm_num)]
      rw [ih _ _ hstep]
      simp [historyPoints, hi]
    · have hstep : historyOf (dashStep s (DashEvent.priceUpdate u)) instrument =
          sliceLast 500 seen := by
        show historyOf (onPriceUpdate u s) instrument = _
        rw [onPriceUpdate_historyOf, if_neg hi, h]
      rw [ih _ _ hstep]
      simp [historyPoints, hi]

theorem onStatus_windows (scope : HandlerScope) (now : Nat) (running : Bool)
    (s : DashboardState) :
    ((onStatus scope now running s).latencyBuffer = s.latencyBuffer ∨
        (onStatus scope now running s).latencyBuffer = []) ∧
      (onStatus scope now running s).priceHistory = s.priceHistory := by
  unfold onStatus
  cases running
  · cases scope.startTime with
    | none => simp
    | some t => by_cases ht : t = 0 <;> simp [ht]
  · simp

/-- Every handler keeps the two windows within their capacities. -/
theorem dashStep_bounded (s : DashboardState) (ev : DashEvent)
    (hl : s.latencyBuffer.length ≤ 1000)
    (hh : ∀ instrument, (historyOf s instrument).length ≤ 500) :
    (dashStep s ev).latencyBuffer.length ≤ 1000 ∧
      ∀ instrument, (historyOf (dashStep s ev) instrument).length ≤ 500 := by
  cases ev with
  | connect => exact ⟨hl, hh⟩
  | disconnect => exact ⟨hl, hh⟩
  | initialData initialPrices => exact ⟨hl, hh⟩
  | status now running =>
    obtain ⟨h1, h2⟩ := onStatus_windows mountScope now running s
    constructor
    · show (onStatus mountScope now running s).latencyBuffer.length ≤ 1000
      rcases h1 with h1 | h1 <;> rw [h1]
      · exact hl
      · simp
    · intro instrument
      show (historyOf (onStatus mountScope now running s) instrument).length ≤ 500
      unfold historyOf
      rw [h2]
      exact hh instrument
  | priceUpdate u =>
    constructor
    · show (onPriceUpdate u s).latencyBuffer.length ≤ 1000
      rw [onPriceUpdate_latencyBuffer]
      split_ifs
      · exact sliceLast_length_le _ _
      · exact hl
    · intro instrument
      show (historyOf (onPriceUpdate u s) instrument).length ≤ 500
      rw [onPriceUpdate_historyOf]
      split_ifs
      · exact sliceLast_length_le _ _
      · exact hh instrument

theorem dashRun_bounded (events : List DashEvent) (s : DashboardState)
    (hl : s.latencyBuffer.length ≤ 1000)
    (hh : ∀ instrument, (historyOf s instrument).length ≤ 500) :
    (dashRun s events).latencyBuffer.length ≤ 1000 ∧
      ∀ instrument, (historyOf (dashRun s events) instrument).length ≤ 500 := by
  induction events generalizing s with
  | nil => exact ⟨hl, hh⟩
  | cons ev rest ih =>
    obtain ⟨h1, h2⟩ := dashStep_bounded s ev hl hh
    exact ih (dashStep s ev) h1 h2

theorem historyOf_initial (instrument : String) :
    historyOf DashboardState.initial instrument = [] := by
  unfold historyOf DashboardState.initial
  simp only
  split_ifs <;> rfl

/-! ### Claims about the dashboard windows and metrics -/

/-- C13: over every stream of events the latency buffer never holds more than 1000
samples and no price history more than 500 points. Over a stream of `priceUpdate`
messages the latency buffer is the last 1000 latency samples (one per message carrying a
`time_sent`) and each price history is the last 500 points of its instrument, in arrival
order; appending to a full window evicts its oldest entry. -/
theorem dashboard_windows_bounded_fifo :
    (∀ events : List DashEvent,
      (dashRun DashboardState.initial events).latencyBuffer.length ≤ 1000 ∧
      ∀ instrument : String,
        (historyOf (dashRun DashboardState.initial events) instrument).length ≤ 500) ∧
    (∀ ups : List PriceUpdate,
      (dashRun DashboardState.initial (ups.map DashEvent.priceUpdate)).latencyBuffer
        = sliceLast 1000 (latencySamples ups) ∧
      ∀ instrument : String,
        historyOf (dashRun DashboardState.initial (ups.map DashEvent.priceUpdate)) instrument
          = sliceLast 500 (historyPoints instrument ups)) ∧
    (∀ (s : DashboardState) (u : PriceUpdate),
      u.tick.time_sent ≠ 0 → s.latencyBuffer.length = 1000 →
      (onPriceUpdate u s).latencyBuffer
        = s.latencyBuffer.tail ++ [(u.timeReceived : ℤ) - (u.tick.time_sent : ℤ)]) ∧
    (∀ (s : DashboardState) (u : PriceUpdate),
      (historyOf s u.tick.instrument).length = 500 →
      historyOf (onPriceUpdate u s) u.tick.instrument
        = (historyOf s u.tick.instrument).tail ++
          [{ price := u.tick.price, timestamp := u.timeReceived }]) := by
  refine ⟨?_, ?_, ?_, ?_⟩
  · intro events
    exact dashRun_bounded events DashboardState.initial (by simp [DashboardState.initial])
      (fun instrument => by rw [historyOf_initial]; simp)
  · intro ups
    constructor
    · have h := dashRun_latencyBuffer ups DashboardState.initial [] rfl
      simpa using h
    · intro instrument
      have h := dashRun_historyOf ups DashboardState.initial instrument []
        (by rw [historyOf_initial]; rfl)
      simpa using h
  · intro s u hs hfull
    rw [onPriceUpdate_latencyBuffer, if_pos hs, sliceLast_full 1000 (by norm_num) _ _ hfull]
  · intro s u hfull
    rw [onPriceUpdate_historyOf, if_pos rfl, sliceLast_full 500 (by norm_num) _ _ hfull]

/-- C13 on full windows: a `priceUpdate` with latency 7 pushes out the oldest latency
sample and the oldest NSE:ACC history point. -/
theorem dashboard_windows_bounded_fifo_witness :
    (onPriceUpdate (sampleUpdate 107 100) fullWindows).latencyBuffer
        = (List.replicate 1000 (4 : ℤ)).tail ++ [((107 : Nat) : ℤ) - ((100 : Nat) : ℤ)] ∧
      historyOf (onPriceUpdate (sampleUpdate 107 100) fullWindows) "NSE:ACC"
        = (List.replicate 500 ({ price := 1800, timestamp := 1 } : PricePoint)).tail ++
          [{ price := 1801, timestamp := 107 }] :=
  ⟨dashboard_windows_bounded_fifo.2.2.1 fullWindows (sampleUpdate 107 100)
      (by simp [sampleUpdate])
      (show (List.replicate 1000 (4 : ℤ)).length = 1000 from List.length_replicate _ _),
   dashboard_windows_bounded_fifo.2.2.2 fullWindows (sampleUpdate 107 100)
      (show (List.replicate 500 ({ price := 1800, timestamp := 1 } : PricePoint)).length = 500
        from List.length_replicate _ _)⟩

theorem toFixed_one_tenths (x : ℚ) : ∃ n : ℤ, toFixed 1 x = n / 10 := by
  unfold toFixed
  split_ifs
  · exact ⟨-⌊-x * 10 ^ 1 + 1 / 2⌋, by push_cast; ring⟩
  · exact ⟨⌊x * 10 ^ 1 + 1 / 2⌋, by norm_num⟩

theorem toFixed_one_near (x : ℚ) : |toFixed 1 x - x| ≤ 1 / 20 := by
  unfold toFixed
  rw [pow_one]
  split_ifs
  · have h1 := Int.floor_le (-x * 10 + 1 / 2)
    have h2 := Int.lt_floor_add_one (-x * 10 + 1 / 2)
    rw [abs_le]
    constructor <;> linarith
  · have h1 := Int.floor_le (x * 10 + 1 / 2)
    have h2 := Int.lt_floor_add_one (x * 10 + 1 / 2)
    rw [abs_le]
    constructor <;> linarith

theorem toFixed_intCast (digits : Nat) (n : ℕ) : toFixed digits (n : ℚ) = n := by
  have hp : (0 : ℚ) < 10 ^ digits := by positivity
  have hn : ¬ ((n : ℚ) < 0) := by
    have : (0 : ℚ) ≤ n := Nat.cast_nonneg n
    linarith
  have hfl : ⌊(n : ℚ) * 10 ^ digits + 1 / 2⌋ = (n : ℤ) * 10 ^ digits := by
    rw [Int.floor_eq_iff]
    push_cast
    constructor <;> linarith
  simp only [toFixed, hn, if_false, hfl]
  push_cast
  field_simp

/-- The displayed tick rate while Running, from the state variables. -/
theorem displayTickRate_of_running (s : DashboardState) (startTime currentTime : Nat)
    (hrun : s.isRunning = true) (hstart : s.startTime = some startTime)
    (hpos : startTime ≠ 0) :
    displayTickRate currentTime s =
      if (currentTime : ℤ) - (startTime : ℤ) < 500 then none
      else some (toFixed 1
        ((s.systemTicks : ℚ) / ((((currentTime : ℤ) - (startTime : ℤ) : ℤ) : ℚ) / 1000))) := by
  have hel : elapsedTime currentTime s = (currentTime : ℤ) - (startTime : ℤ) := by
    simp [elapsedTime, hrun, hstart, hpos]
  simp only [displayTickRate, liveTicksPerSecond, hrun, hel, MIN_CALCULATION_TIME_MS,
    if_true, Bool.true_and, decide_eq_true_eq]
  by_cases h : (currentTime : ℤ) - (startTime : ℤ) < 500
  · rw [if_pos h, if_neg (by omega)]
  · rw [if_neg h, if_pos (by omega)]

theorem dashRun_priceUpdates_keeps (ups : List PriceUpdate) (s : DashboardState) :
    (dashRun s (ups.map DashEvent.priceUpdate)).systemTicks = s.systemTicks + ups.length ∧
      (dashRun s (ups.map DashEvent.priceUpdate)).isRunning = s.isRunning ∧
      (dashRun s (ups.map DashEvent.priceUpdate)).startTime = s.startTime ∧
      (dashRun s (ups.map DashEvent.priceUpdate)).finalMetrics = s.finalMetrics := by
  induction ups generalizing s with
  | nil => exact ⟨rfl, rfl, rfl, rfl⟩
  | cons u rest ih =>
    rw [List.map_cons, dashRun_cons]
    obtain ⟨h1, h2, h3, h4⟩ := ih (dashStep s (DashEvent.priceUpdate u))
    obtain ⟨k1, k2, k3, k4⟩ := onPriceUpdate_keeps u s
    have e1 : (dashStep s (DashEvent.priceUpdate u)).systemTicks = s.systemTicks + 1 := k1
    have e2 : (dashStep s (DashEvent.priceUpdate u)).isRunning = s.isRunning := k2
    have e3 : (dashStep s (DashEvent.priceUpdate u)).startTime = s.startTime := k3
    have e4 : (dashStep s (DashEvent.priceUpdate u)).finalMetrics = s.finalMetrics := k4
    refine ⟨?_, h2.trans e2, h3.trans e3, h4.trans e4⟩
    rw [h1, e1, List.length_cons]
    omega

theorem onStatus_start (scope : HandlerScope) (now : Nat) (s : DashboardState) :
    (onStatus scope now true s).isRunning = true ∧
      (onStatus scope now true s).startTime = some now ∧
      (onStatus scope now true s).systemTicks = 0 ∧
      (onStatus scope now true s).latencyBuffer = [] ∧
      (onStatus scope now true s).finalMetrics = { tickRate := none, latency := none } := by
  simp [onStatus]

/-- The registered `status` handler, on a stop message, only clears `isRunning`. -/
theorem onStatus_stop_mountScope (now : Nat) (s : DashboardState) :
    onStatus mountScope now false s = { s with isRunning := false } := by
  simp [onStatus, mountScope, DashboardState.initial]

/-- What the stop branch of the `status` handler computes when the variables it reads
are those of the current state: the tick rate and mean latency of the run. -/
theorem onStatus_stop_scopeOf (now startTime : Nat) (s : DashboardState)
    (hstart : s.startTime = some startTime) (hpos : startTime ≠ 0) :
    (onStatus (scopeOf s) now false s).finalMetrics =
      { tickRate :=
          if (now : ℤ) - (startTime : ℤ) ≥ 500 then
            some (toFixed 1
              ((s.systemTicks : ℚ) / ((((now : ℤ) - (startTime : ℤ) : ℤ) : ℚ) / 1000)))
          else none
        latency := some (toFixed 2 (calculateAverage s.latencyBuffer)) } := by
  simp [onStatus, scopeOf, hstart, hpos, MIN_CALCULATION_TIME_MS]

/-- C14: while Running, the reported tick rate is `N/A` exactly when the time elapsed
since the last start is below 500 ms, and otherwise it is
`tickCount / (elapsedMs / 1000)` shown with one decimal (a multiple of 0.1 within 0.05 of
it), where the tick count is the number of `priceUpdate` messages since the last start;
1000 ticks over exactly 1000 ms are reported as 1000.0. The start time is a `Date.now()`
value, which is non-zero. -/
theorem displayTickRate_while_running :
    (∀ (s : DashboardState) (startTime currentTime : Nat),
      s.isRunning = true → s.startTime = some startTime → startTime ≠ 0 →
      displayTickRate currentTime s =
        if (currentTime : ℤ) - (startTime : ℤ) < 500 then none
        else some (toFixed 1
          ((s.systemTicks : ℚ) / ((((currentTime : ℤ) - (startTime : ℤ) : ℤ) : ℚ) / 1000)))) ∧
    (∀ (s : DashboardState) (startTime currentTime : Nat) (ups : List PriceUpdate),
      startTime ≠ 0 →
      displayTickRate currentTime
          (dashRun (dashStep s (DashEvent.status startTime true))
            (ups.map DashEvent.priceUpdate)) =
        if (currentTime : ℤ) - (startTime : ℤ) < 500 then none
        else some (toFixed 1
          ((ups.length : ℚ) / ((((currentTime : ℤ) - (startTime : ℤ) : ℤ) : ℚ) / 1000)))) ∧
    (∀ x : ℚ, (∃ n : ℤ, toFixed 1 x = n / 10) ∧ |toFixed 1 x - x| ≤ 1 / 20) ∧
    (∀ (s : DashboardState) (startTime : Nat),
      s.isRunning = true → s.startTime = some startTime → startTime ≠ 0 →
      s.systemTicks = 1000 → displayTickRate (startTime + 1000) s = some 1000) := by
  refine ⟨displayTickRate_of_running, ?_, fun x => ⟨toFixed_one_tenths x, toFixed_one_near x⟩, ?_⟩
  · intro s startTime currentTime ups hpos
    obtain ⟨h1, h2, h3, _⟩ :=
      dashRun_priceUpdates_keeps ups (dashStep s (DashEvent.status startTime true))
    obtain ⟨k1, k2, k3, _, _⟩ := onStatus_start mountScope startTime s
    have e1 : (dashStep s (DashEvent.status startTime true)).isRunning = true := k1
    have e2 : (dashStep s (DashEvent.status startTime true)).startTime = some startTime := k2
    have e3 : (dashStep s (DashEvent.status startTime true)).systemTicks = 0 := k3
    rw [displayTickRate_of_running _ startTime currentTime (h2.trans e1) (h3.trans e2) hpos,
      h1, e3, Nat.zero_add]
  · intro s startTime hrun hstart hpos hticks
    rw [displayTickRate_of_running s startTime (startTime + 1000) hrun hstart hpos, hticks]
    have hel : ((startTime + 1000 : ℕ) : ℤ) - (startTime : ℤ) = 1000 := by
      push_cast
      ring
    rw [hel, if_neg (by norm_num)]
    have hq : ((1000 : ℕ) : ℚ) / (((1000 : ℤ) : ℚ) / 1000) = ((1000 : ℕ) : ℚ) := by norm_num
    rw [hq, toFixed_intCast]
    norm_num

/-- C14 on a state started at 5000 with 1000 ticks: at 6000 the rate is 1000.0 and at
5499 it is `N/A`. -/
theorem displayTickRate_while_running_witness :
    displayTickRate (5000 + 1000) runningSince5000 = some 1000 ∧
      displayTickRate 5499 runningSince5000 = none :=
  ⟨displayTickRate_while_running.2.2.2 runningSince5000 5000 rfl rfl (by norm_num) rfl,
   (displayTickRate_while_running.1 runningSince5000 5000 5499 rfl rfl (by norm_num)).trans
     (if_pos (by norm_num))⟩

/-- C16 fails on the code: after a start at time 1000 and two ticks with latencies 5 and
7, the dashboard holds 2 ticks, the samples 5 and 7 and the start time 1000. The stop
message at time 2000 leaves `finalMetrics` at `N/A`, so both displayed metrics are `N/A`,
whereas the stop branch evaluated on the current state gives the rate 2.0 and the latency
6.00. -/
theorem stop_does_not_freeze_metrics :
    (dashRun DashboardState.initial shortRun).systemTicks = 2 ∧
      (dashRun DashboardState.initial shortRun).latencyBuffer = [5, 7] ∧
      (dashRun DashboardState.initial shortRun).startTime = some 1000 ∧
      (dashRun DashboardState.initial (shortRun ++ [DashEvent.status 2000 false])).isRunning
        = false ∧
      (dashRun DashboardState.initial (shortRun ++ [DashEvent.status 2000 false])).finalMetrics
        = { tickRate := none, latency := none } ∧
      displayTickRate 2000
        (dashRun DashboardState.initial (shortRun ++ [DashEvent.status 2000 false])) = none ∧
      displayAvgLatency
        (dashRun DashboardState.initial (shortRun ++ [DashEvent.status 2000 false])) = none ∧
      (onStatus (scopeOf (dashRun DashboardState.initial shortRun)) 2000 false
        (dashRun DashboardState.initial shortRun)).finalMetrics
        = { tickRate := some 2, latency := some 6 } := by
  have hticks : (dashRun DashboardState.initial shortRun).systemTicks = 2 := by
    simp [shortRun, dashRun, dashStep, onStatus, onPriceUpdate, sampleUpdate]
  have hbuf : (dashRun DashboardState.initial shortRun).latencyBuffer = [5, 7] := by
    simp [shortRun, dashRun, dashStep, onStatus, onPriceUpdate, sampleUpdate, sliceLast,
      LATENCY_BUFFER_SIZE]
  have hstart : (dashRun DashboardState.initial shortRun).startTime = some 1000 := by
    simp [shortRun, dashRun, dashStep, onStatus, onPriceUpdate, sampleUpdate]
  have hfm : (dashRun DashboardState.initial shortRun).finalMetrics
      = { tickRate := none, latency := none } := by
    simp [shortRun, dashRun, dashStep, onStatus, onPriceUpdate, sampleUpdate]
  have hstop : dashRun DashboardState.initial (shortRun ++ [DashEvent.status 2000 false])
      = { dashRun DashboardState.initial shortRun with isRunning := false } := by
    simp only [dashRun, List.foldl_append, List.foldl_cons, List.foldl_nil, dashStep,
      onStatus_stop_mountScope]
  have hwould := onStatus_stop_scopeOf 2000 1000 (dashRun DashboardState.initial shortRun)
    hstart (by norm_num)
  refine ⟨hticks, hbuf, hstart, ?_, ?_, ?_, ?_, ?_⟩
  · rw [hstop]
  · rw [hstop]
    exact hfm
  · rw [hstop]
    simp [displayTickRate, hfm]
  · rw [hstop]
    simp [displayAvgLatency, hfm]
  · rw [hwould, hticks, hbuf]
    have h1 : toFixed 1 (((2 : ℕ) : ℚ) / (((((2000 : ℕ) : ℤ) - ((1000 : ℕ) : ℤ) : ℤ) : ℚ) / 1000))
        = 2 := by
      have hq : ((2 : ℕ) : ℚ) / (((((2000 : ℕ) : ℤ) - ((1000 : ℕ) : ℤ) : ℤ) : ℚ) / 1000)
          = ((2 : ℕ) : ℚ) := by norm_num
      rw [hq, toFixed_intCast]
      norm_num
    have h2 : toFixed 2 (calculateAverage [5, 7]) = 6 := by
      have hq : calculateAverage [5, 7] = ((6 : ℕ) : ℚ) := by
        simp [calculateAverage]
        norm_num
      rw [hq, toFixed_intCast]
      norm_num
    rw [h1, h2]
    norm_num

/-! ## Facts about binary64 rounding -/

theorem roundHalfEven_eq_of_lt (x : ℚ) (n : ℤ) (h1 : (n : ℚ) - 1 / 2 < x)
    (h2 : x < (n : ℚ) + 1 / 2) : roundHalfEven x = n := by
  unfold roundHalfEven
  by_cases hx : (n : ℚ) ≤ x
  · have hf : ⌊x⌋ = n := by
      rw [Int.floor_eq_iff]
      constructor <;> linarith
    simp only [hf]
    rw [if_pos (by linarith)]
  · have hf : ⌊x⌋ = n - 1 := by
      rw [Int.floor_eq_iff]
      push_cast
      constructor <;> linarith
    simp only [hf]
    push_cast
    rw [if_neg (by linarith), if_pos (by linarith)]
    ring

/-- The binary64 value of a positive `x` in the binade `[2 ^ e, 2 ^ (e + 1))` when `x` is
not halfway between two values. -/
theorem toDouble_eq (x : ℚ) (e n : ℤ) (hpos : 0 < x) (hlo : (2 : ℚ) ^ e ≤ x)
    (hhi : x < (2 : ℚ) ^ (e + 1)) (he : -1022 ≤ e)
    (h1 : (n : ℚ) - 1 / 2 < x / 2 ^ (e - 52)) (h2 : x / 2 ^ (e - 52) < (n : ℚ) + 1 / 2) :
    toDouble x = (n : ℚ) * 2 ^ (e - 52) := by
  have habs : |x| = x := abs_of_pos hpos
  have hlog : Int.log 2 x = e := by
    have ha := (Int.zpow_le_iff_le_log (b := 2) (by norm_num) (x := e) hpos).mp
      (by exact_mod_cast hlo)
    have hb := (Int.lt_zpow_iff_log_lt (b := 2) (by norm_num) (x := e + 1) hpos).mp
      (by exact_mod_cast hhi)
    omega
  unfold toDouble
  rw [if_neg (ne_of_gt hpos), habs, hlog, max_eq_left he]
  show (roundHalfEven (x / 2 ^ (e - 52)) : ℚ) * 2 ^ (e - 52) = (n : ℚ) * 2 ^ (e - 52)
  rw [roundHalfEven_eq_of_lt _ n h1 h2]

theorem toDouble_750_10 : toDouble (75010 / 100) = 6597949375958221 / 2 ^ 43 := by
  have h := toDouble_eq (75010 / 100) 9 6597949375958221 (by norm_num) (by norm_num)
    (by norm_num) (by norm_num) (by norm_num) (by norm_num)
  rw [h]
  norm_num

theorem toDouble_825_11 : toDouble (82511 / 100) = 7257744313554043 / 2 ^ 43 := by
  have h := toDouble_eq (82511 / 100) 9 7257744313554043 (by norm_num) (by norm_num)
    (by norm_num) (by norm_num) (by norm_num) (by norm_num)
  rw [h]
  norm_num

theorem toDouble_0_10 : toDouble (10 / 100) = 7205759403792794 / 2 ^ 56 := by
  have h := toDouble_eq (10 / 100) (-4) 7205759403792794 (by norm_num) (by norm_num)
    (by norm_num) (by norm_num) (by norm_num) (by norm_num)
  rw [h]
  norm_num

theorem toDouble_difference :
    toDouble ((7257744313554043 / 2 ^ 43 : ℚ) - 6597949375958221 / 2 ^ 43)
      = 5278359500766576 / 2 ^ 46 := by
  have h := toDouble_eq ((7257744313554043 / 2 ^ 43 : ℚ) - 6597949375958221 / 2 ^ 43) 6
    5278359500766576 (by norm_num) (by norm_num) (by norm_num) (by norm_num) (by norm_num)
    (by norm_num)
  rw [h]
  norm_num

theorem toDouble_quotient :
    toDouble ((5278359500766576 / 2 ^ 46 : ℚ) / (6597949375958221 / 2 ^ 43))
      = 7205759403792793 / 2 ^ 56 := by
  have h := toDouble_eq ((5278359500766576 / 2 ^ 46 : ℚ) / (6597949375958221 / 2 ^ 43)) (-4)
    7205759403792793 (by norm_num) (by norm_num) (by norm_num) (by norm_num) (by norm_num)
    (by norm_num)
  rw [h]
  norm_num

/-- C1 fails on the code: the prices 750.10 and 825.11 are exactly 10% apart, so the
claim asks for a SpikeEvent. In binary64 the two prices are `6597949375958221 / 2^43` and
`7257744313554043 / 2^43`, the quotient computed at line 33 is `7205759403792793 / 2^56`
(printed `0.09999999999999999`), one unit below the value `7205759403792794 / 2^56` of
`SPIKE_THRESHOLD`, and `detectAndLog` returns null. -/
theorem detectAndLog_double_misses_exact_ten_percent :
    |((82511 / 100 : ℚ) - 75010 / 100) / (75010 / 100)| ≥ 10 / 100 ∧
      toDouble (75010 / 100) = 6597949375958221 / 2 ^ 43 ∧
      toDouble (82511 / 100) = 7257744313554043 / 2 ^ 43 ∧
      toDouble SPIKE_THRESHOLD = 7205759403792794 / 2 ^ 56 ∧
      toDouble (toDouble (toDouble (82511 / 100) - toDouble (75010 / 100))
        / toDouble (75010 / 100)) = 7205759403792793 / 2 ^ 56 ∧
      (detectAndLogDouble 0 (singleEntry "NSE:SBIN" (toDouble (75010 / 100)))
        { instrument := "NSE:SBIN", price := toDouble (82511 / 100) }).1 = none := by
  have hthr : toDouble SPIKE_THRESHOLD = 7205759403792794 / 2 ^ 56 := toDouble_0_10
  have hq : toDouble (toDouble (toDouble (82511 / 100) - toDouble (75010 / 100))
      / toDouble (75010 / 100)) = 7205759403792793 / 2 ^ 56 := by
    rw [toDouble_750_10, toDouble_825_11, toDouble_difference, toDouble_quotient]
  refine ⟨?_, toDouble_750_10, toDouble_825_11, hthr, hq, ?_⟩
  · rw [abs_of_nonneg (by norm_num)]
    norm_num
  · have hold : (singleEntry "NSE:SBIN" (toDouble (75010 / 100))).lastKnownPrices "NSE:SBIN"
        = some (toDouble (75010 / 100)) := by
      simp [singleEntry, setKey]
    have hne : toDouble (75010 / 100) ≠ 0 := by
      rw [toDouble_750_10]
      norm_num
    have hlt : ¬ |toDouble (toDouble (toDouble (82511 / 100) - toDouble (75010 / 100))
        / toDouble (75010 / 100))| ≥ toDouble SPIKE_THRESHOLD := by
      rw [hq, hthr, abs_of_nonneg (by norm_num)]
      norm_num
    simp only [detectAndLogDouble, hold, hne, if_false, hlt]

end MarketFeed
